import Mathlib

/-!
# energiminer pool client: a shallow embedding

Embedding of `src/protocol/stratum/StratumClient.cpp` (the stream client) and
`src/energiminer/solution.cpp` (block submission data).

Conventions.
* A `std::string` is a Lean `String`; each `Char` stands for one C++ `char`,
  so `String.length` is `std::string::length`.
* A `Json::Value` (jsoncpp) is a `Json`.  The members of an object are kept
  in the order jsoncpp iterates them (ascending key, keys distinct).
* Code that can throw returns an `Outcome` that says whether it returned or
  an exception escaped, and in which state the session was left.
* Calls that only touch the outside world (timers, socket, callbacks) are
  recorded, in program order, in the session's `out` log.
-/

namespace Energi

/-! ## jsoncpp values -/

/-- A `Json::Value`: one constructor per `Json::ValueType`. -/
inductive Json where
  | null
  | int (i : Int)
  | uint (n : Nat)
  | real (q : ℚ)
  | str (s : String)
  | bool (b : Bool)
  | arr (xs : List Json)
  | obj (kvs : List (String × Json))

namespace Json

/-- `Value::isNull`. -/
def isNull : Json → Bool
  | null => true
  | _ => false

/-- `Value::isArray`. -/
def isArray : Json → Bool
  | arr _ => true
  | _ => false

/-- `Value::isBool`. -/
def isBool : Json → Bool
  | bool _ => true
  | _ => false

/-- `Value::isString`. -/
def isString : Json → Bool
  | str _ => true
  | _ => false

/-- `Value::empty`: a null, an array or an object with no element; every
other value is not empty. -/
def empty : Json → Bool
  | null => true
  | arr xs => xs.isEmpty
  | obj kvs => kvs.isEmpty
  | _ => false

/-- `value == Json::Value(t)` for a string `t`: a string value of the same
content. -/
def eqStr : Json → String → Bool
  | str s, t => s == t
  | _, _ => false

/-- Largest value of jsoncpp's `UInt` (a 32-bit `unsigned int`). -/
def maxUInt : Nat := 4294967295

/-- `Value::asUInt`: `none` stands for the `Json::LogicError` jsoncpp throws
when the value is out of range or not convertible. -/
def asUInt : Json → Option Nat
  | null => some 0
  | int i => if 0 ≤ i ∧ i ≤ (maxUInt : Int) then some i.toNat else none
  | uint n => if n ≤ maxUInt then some n else none
  | real q => if 0 ≤ q ∧ q ≤ (maxUInt : ℚ) then some (Rat.floor q).toNat else none
  | bool b => some (if b then 1 else 0)
  | str _ => none
  | arr _ => none
  | obj _ => none

/-- `Value::asDouble`, a double being an exact rational here; `none` stands
for the `Json::LogicError` thrown on strings, arrays and objects. -/
def asDouble : Json → Option ℚ
  | null => some 0
  | int i => some i
  | uint n => some n
  | real q => some q
  | bool b => some (if b then 1 else 0)
  | str _ => none
  | arr _ => none
  | obj _ => none

/-- `Value::asString`; `rts` is jsoncpp's rendering of a double.  `none`
stands for the `Json::LogicError` thrown on arrays and objects. -/
def asString (rts : ℚ → String) : Json → Option String
  | null => some ""
  | str s => some s
  | bool b => some (if b then "true" else "false")
  | int i => some (toString i)
  | uint n => some (toString n)
  | real q => some (rts q)
  | arr _ => none
  | obj _ => none

/-- `Value::isConvertibleTo(stringValue)`. -/
def isConvertibleToString : Json → Bool
  | arr _ => false
  | obj _ => false
  | _ => true

/-- `Value::isConvertibleTo(arrayValue)`. -/
def isConvertibleToArray : Json → Bool
  | arr _ => true
  | null => true
  | _ => false

/-- `Value::isConvertibleTo(objectValue)`. -/
def isConvertibleToObject : Json → Bool
  | obj _ => true
  | null => true
  | _ => false

/-- The members a keyed access (`isMember`, `get(key, _)`, `operator[]`)
works on: those of an object, none for a null; on any other value jsoncpp
throws, which is `none`. -/
def members : Json → Option (List (String × Json))
  | obj kvs => some kvs
  | null => some []
  | _ => none

/-- `Value::get(key, defaultValue)` on the members of an object. -/
def getKey (m : List (String × Json)) (key : String) (dflt : Json) : Json :=
  (m.lookup key).getD dflt

/-- `Value::isMember(key)` on the members of an object. -/
def isMember (m : List (String × Json)) (key : String) : Bool :=
  (m.lookup key).isSome

/-- The order jsoncpp keeps the members of an object in (`CZString`'s
`operator<`): the keys compared character by character, a proper prefix
first. -/
def keyLt : List Char → List Char → Bool
  | [], [] => false
  | [], _ :: _ => true
  | _ :: _, [] => false
  | a :: as, b :: bs =>
    if a.toNat < b.toNat then true
    else if a.toNat = b.toNat then keyLt as bs
    else false

/-- `jReq[key] = v` on the members of an object: the member is replaced, or
inserted at its place in ascending key order. -/
def setKey : List (String × Json) → String → Json → List (String × Json)
  | [], k, v => [(k, v)]
  | (k0, v0) :: rest, k, v =>
    if keyLt k.data k0.data then (k, v) :: (k0, v0) :: rest
    else if k = k0 then (k, v) :: rest
    else (k0, v0) :: setKey rest k v

/-- `jReq[key].append(v)`: the member `key` becomes an array if it was absent
or null, and `v` is added at its end. -/
def appendAt (m : List (String × Json)) (key : String) (v : Json) : List (String × Json) :=
  match m.lookup key with
  | some (arr xs) => setKey m key (arr (xs ++ [v]))
  | _ => setKey m key (arr [v])

end Json

/-! ## Session data -/

/-- The protocol dialect, `m_conn->Version()`. -/
inductive Version where
  | STRATUM
  | ETHPROXY
  | ETHEREUMSTRATUM
  deriving DecidableEq

/-- The transport security, `m_conn->SecLevel()`. -/
inductive SecureLevel where
  | NONE
  | TLS12
  | TLS
  deriving DecidableEq

/-- The pool endpoint `m_conn` points to, by the accessors the client calls. -/
structure Conn where
  version : Version
  secLevel : SecureLevel
  host : String
  port : Nat
  user : String
  path : String
  pass : String

/-- An `energi::Work`, by the members the sources read or write: `isValid()`,
`blockHeader` (32-bit words), `rawTransactionData` and `exSizeBits`. -/
structure Work where
  valid : Bool
  blockHeader : List Nat
  rawTransactionData : String
  exSizeBits : Nat

/-- What the sources take from outside `src/`: the build's version string
`ENERGI_PROJECT_VERSION`, jsoncpp's rendering of a double, and the
constructor `energi::Work(params, extraNonce, flag)`. -/
structure Env where
  projectVersion : String
  realToString : ℚ → String
  mkWork : Json → String → Bool → Work

/-- What the client does to the outside world, in program order. -/
inductive Effect where
  /-- A frame handed to the socket by `sendSocketData`. -/
  | send (frame : Json)
  /-- `m_onWorkReceived(work)`. -/
  | onWorkReceived (work : Work)
  /-- `m_onSolutionAccepted(arg)`. -/
  | onSolutionAccepted (arg : Bool)
  /-- `m_onSolutionRejected(arg)`. -/
  | onSolutionRejected (arg : Bool)
  /-- `m_onDisconnected()`. -/
  | onDisconnected
  /-- Entry into `disconnect()`. -/
  | disconnectCall
  /-- `m_socket->cancel()`. -/
  | socketCancel
  /-- The posted task that cancels the three timers. -/
  | postCancelTimers
  /-- `m_securesocket->async_shutdown(...)`. -/
  | asyncShutdown
  /-- `shutdown(shutdown_both)` followed by `close()` on the socket. -/
  | socketShutdownClose
  /-- `m_conntimer` armed for `m_responsetimeout` seconds. -/
  | connTimerArm
  /-- `m_worktimer.cancel()`. -/
  | workTimerCancel
  /-- `m_worktimer` armed for `m_worktimeout` seconds. -/
  | workTimerArm
  /-- `m_responsetimer.cancel()`. -/
  | responseTimerCancel
  /-- `m_responsetimer` armed for `m_responsetimeout` seconds. -/
  | responseTimerArm
  /-- `m_onConnected()`. -/
  | onConnected
  /-- `m_resolver.async_resolve(...)` for the host and port given. -/
  | asyncResolve (host : String) (port : Nat)
  /-- `m_resolver.cancel()`. -/
  | resolverCancel
  /-- The posted task that runs `start_connect`. -/
  | postStartConnect
  /-- `async_connect(m_endpoint, ...)` on the socket. -/
  | asyncConnect (endpoint : String)
  /-- `m_conntimer.cancel()`. -/
  | connTimerCancel
  /-- `m_conntimer.expires_at(pos_infin)`. -/
  | connTimerInfinite
  /-- `m_conntimer.async_wait(...)` issued by `check_connect_timeout`. -/
  | connTimerWait
  /-- `close()` on the socket. -/
  | socketClose
  /-- `async_read_until(...)` issued by `recvSocketData`. -/
  | asyncRead
  /-- The posted task that runs `processReponse` on a parsed message. -/
  | postProcessReponse (msg : Json)
  /-- The posted task that runs `disconnect_finalize`. -/
  | postDisconnectFinalize

/-- The state of a `StratumClient`.  `socket` is `m_socket`: `none` for
`nullptr`, `some b` for a socket whose `is_open()` is `b`.  The `has...`
flags say whether the callback of that name is set.  `endpoints` is the
queue `m_endpoints`, front first, and `endpoint` is `m_endpoint`.  `out` is
the log of effects so far. -/
structure Session where
  conn : Conn
  connecting : Bool
  connected : Bool
  subscribed : Bool
  authorized : Bool
  disconnecting : Bool
  responsePending : Bool
  socket : Option Bool
  endpoints : List String
  endpoint : String
  worker : String
  extraNonce : String
  extraNonceHexSize : Nat
  nextWorkDifficulty : ℚ
  current : Work
  hasOnConnected : Bool
  hasOnDisconnected : Bool
  hasOnWorkReceived : Bool
  hasOnSolutionAccepted : Bool
  hasOnSolutionRejected : Bool
  out : List Effect

/-- How a call ended: it returned, or an exception escaped it; either way
with the session in the state given. -/
inductive Outcome where
  | returned (s : Session)
  | threw (s : Session)

/-- The session a call left behind, however it ended. -/
def Outcome.session : Outcome → Session
  | .returned s => s
  | .threw s => s

namespace Session

/-- Append one effect to the log. -/
def emit (s : Session) (e : Effect) : Session :=
  { s with out := s.out ++ [e] }

end Session

/-! ## StratumClient -/

/-- Modelled from the spec: `isPendingState()` is declared in StratumClient.h,
which is not in src; it is true when connecting or disconnecting. -/
def isPendingState (s : Session) : Bool :=
  s.connecting || s.disconnecting

/-- Modelled from the spec: `isConnected()` is declared in StratumClient.h,
which is not in src; the session is connected and not in a pending state. -/
def isConnected (s : Session) : Bool :=
  s.connected && !isPendingState s

/-- `StratumClient::sendSocketData`: nothing unless connected, else the frame
is written to the socket. -/
def sendSocketData (s : Session) (jReq : List (String × Json)) : Session :=
  if !isConnected s then s else s.emit (.send (.obj jReq))

/-- `StratumClient::reset_work_timeout`. -/
def reset_work_timeout (s : Session) : Session :=
  (s.emit .workTimerCancel).emit .workTimerArm

/-- `StratumClient::disconnect_finalize`. -/
def disconnect_finalize (s : Session) : Session :=
  let s :=
    if s.conn.secLevel ≠ SecureLevel.NONE then
      if s.socket = some true then s.emit .socketShutdownClose else s
    else s
  let s := { s with socket := none }
  let s := { s with subscribed := false }
  let s := { s with authorized := false }
  let s := { s with connected := false }
  let s := { s with disconnecting := false }
  if s.hasOnDisconnected then s.emit .onDisconnected else s

/-- `StratumClient::disconnect`.  An exception from the socket calls is
caught there and leads to `disconnect_finalize` as well. -/
def disconnect (s : Session) : Session :=
  let s := s.emit .disconnectCall
  if s.disconnecting then s
  else
    let s := { s with disconnecting := true }
    let s := if s.socket.isSome then s.emit .socketCancel else s
    let s := s.emit .postCancelTimers
    let s := { s with responsePending := false }
    if s.socket = some true then
      if s.conn.secLevel ≠ SecureLevel.NONE then
        (s.emit .asyncShutdown).emit .connTimerArm
      else
        let s := s.emit .socketShutdownClose
        let s := { s with socket := some false }
        disconnect_finalize s
    else s

/-- The reason string `processError` builds from the elements of an array
`error`: each element's `asString()` followed by a blank. -/
def errorArrayReason (rts : ℚ → String) : List Json → Option String
  | [] => some ""
  | x :: xs =>
    match x.asString rts with
    | none => none
    | some t =>
      match errorArrayReason rts xs with
      | none => none
      | some r => some (t ++ " " ++ r)

/-- The reason string `processError` builds from the members of an object
`error`: each `name:value` followed by a blank. -/
def errorObjectReason (rts : ℚ → String) : List (String × Json) → Option String
  | [] => some ""
  | (k, v) :: kvs =>
    match v.asString rts with
    | none => none
    | some t =>
      match errorObjectReason rts kvs with
      | none => none
      | some r => some (k ++ ":" ++ t ++ " " ++ r)

/-- `StratumClient::processError`; `none` when an `asString()` throws. -/
def processError (env : Env) (responseObject : Json) : Option String :=
  match responseObject.members with
  | none => none
  | some m =>
    if Json.isMember m "error" && !(Json.getKey m "error" .null).isNull then
      let e := Json.getKey m "error" .null
      if e.isConvertibleToString then
        (Json.getKey m "error" (.str "Unknown error")).asString env.realToString
      else if e.isConvertibleToArray then
        match e with
        | .arr xs => errorArrayReason env.realToString xs
        | _ => some ""
      else if e.isConvertibleToObject then
        match e with
        | .obj kvs => errorObjectReason env.realToString kvs
        | _ => some ""
      else some ""
    else some "Unknown error"

/-- The value a C++ `int` (32 bits, two's complement) takes from an unsigned
quantity. -/
def toInt32 (n : Nat) : Int :=
  if n % 4294967296 < 2147483648 then ((n % 4294967296 : Nat) : Int)
  else ((n % 4294967296 : Nat) : Int) - 4294967296

/-- `StratumClient::processExtranonce`: the loop `for (int i = length; i < 16; ++i)`
appends one `'0'` per round, `16 - i` rounds when `i < 16`. -/
def processExtranonce (s : Session) (enonce : String) : Session :=
  let s := { s with extraNonceHexSize := enonce.length }
  let i : Int := toInt32 enonce.length
  let enonce := enonce ++ String.mk (List.replicate (16 - i).toNat '0')
  { s with extraNonce := enonce }

/-- Where the `switch (_id)` of `processReponse` leaves the call: it has
returned (after a `disconnect()`) or thrown, or control goes on to the
notification part with the session, `_method` and `_isNotification` given. -/
inductive Dispatch where
  | done (o : Outcome)
  | goOn (s : Session) (method : String) (isNotification : Bool)

/-- The line `if (_isSuccess && jResult.isBool()) _isSuccess = jResult.asBool();`. -/
def reevaluate (isSuccess : Bool) (jResult : Json) : Bool :=
  match isSuccess, jResult with
  | true, .bool b => b
  | b, _ => b

/-- The authorize request `{id: 3, method: mining.authorize, params: [user + path, pass]}`
as `case 1` builds it on top of `jReq`. -/
def authorizeOn (jReq : List (String × Json)) (c : Conn) : List (String × Json) :=
  let jReq := Json.setKey jReq "id" (.uint 3)
  let jReq := Json.setKey jReq "method" (.str "mining.authorize")
  let jReq := Json.appendAt jReq "params" (.str (c.user ++ c.path))
  Json.appendAt jReq "params" (.str c.pass)

/-- `case 1` of `processReponse`: the reply to `mining.subscribe`. -/
def responseCase1 (env : Env) (s : Session) (isSuccess : Bool) (jResult : Json)
    (method : String) : Dispatch :=
  match s.conn.version with
  | .STRATUM =>
    let s := { s with subscribed := isSuccess }
    if !s.subscribed then .done (.returned (disconnect s))
    else
      let jReq := Json.setKey [] "id" (.uint 3)
      let jReq := Json.setKey jReq "jsonrpc" (.str "2.0")
      let jReq := Json.setKey jReq "method" (.str "mining.authorize")
      let jReq := Json.setKey jReq "params" (.arr [])
      let jReq := Json.appendAt jReq "params" (.str (s.conn.user ++ s.conn.path))
      let jReq := Json.appendAt jReq "params" (.str s.conn.pass)
      .goOn (sendSocketData s jReq) method false
  | .ETHPROXY =>
    let s := { s with subscribed := isSuccess }
    if !s.subscribed then .done (.returned (disconnect s))
    else
      let s := { s with authorized := true }
      let jReq := Json.setKey [] "id" (.uint 5)
      let jReq := Json.setKey jReq "method" (.str "getblocktemplate")
      let jReq := Json.setKey jReq "params" (.arr [])
      .goOn (sendSocketData s jReq) method false
  | .ETHEREUMSTRATUM =>
    let s := { s with subscribed := isSuccess }
    if !s.subscribed then .done (.returned (disconnect s))
    else
      let s := { s with nextWorkDifficulty := 1 }
      let afterNonce : Option Session :=
        match jResult with
        | .arr (x :: xs) =>
          match (List.getD (x :: xs) 1 (.str "")).asString env.realToString with
          | none => none
          | some enonce => some (processExtranonce s enonce)
        | _ => some s
      match afterNonce with
      | none => .done (.threw s)
      | some s =>
        let jReq := Json.setKey [] "id" (.uint 2)
        let jReq := Json.setKey jReq "method" (.str "mining.extranonce.subscribe")
        let jReq := Json.setKey jReq "params" (.arr [])
        let s := sendSocketData s jReq
        let jReq := authorizeOn jReq s.conn
        .goOn (sendSocketData s jReq) method false

/-- The `switch (_id)` of `processReponse`, taken when the message is not a
notification. -/
def handleResponse (env : Env) (s : Session) (m : List (String × Json)) (id : Int)
    (isSuccess : Bool) (method : String) : Dispatch :=
  let jResult := Json.getKey m "result" .null
  if id = 1 then responseCase1 env s isSuccess jResult method
  else if id = 2 then .goOn s method false
  else if id = 3 then
    let isSuccess := reevaluate isSuccess jResult
    let s := { s with authorized := isSuccess }
    if !s.authorized then .done (.returned (disconnect s))
    else .goOn s method false
  else if id = 4 then
    let isSuccess := reevaluate isSuccess jResult
    let s := s.emit .responseTimerCancel
    let s := { s with responsePending := false }
    if isSuccess then
      .goOn (if s.hasOnSolutionAccepted then s.emit (.onSolutionAccepted true) else s)
        method false
    else
      .goOn (if s.hasOnSolutionRejected then s.emit (.onSolutionRejected false) else s)
        method false
  else if id = 5 then
    if s.conn.version = .ETHPROXY ∧ (Json.getKey m "result" .null).isArray then
      .goOn s "mining.notify" true
    else .goOn s method false
  else if id = 9 then .goOn s method false
  else if id = 999 then
    if !isSuccess then
      if !s.subscribed then .done (.returned (disconnect s))
      else if s.subscribed && !s.authorized then .done (.returned (disconnect s))
      else .goOn s method false
    else .goOn s method false
  else .goOn s method false

/-- The `if (_isNotification)` part of `processReponse`: unsolicited
messages from the pool. -/
def handleNotification (env : Env) (s : Session) (m : List (String × Json))
    (rpcVer : Nat) (id : Int) (method : String) : Outcome :=
  let jPrm := Json.getKey m "params" .null
  if method = "mining.notify" then
    match jPrm with
    | .arr xs =>
      match (xs.getD 2 (.str "")).asString env.realToString with
      | none => .threw s
      | some p2 =>
        if p2 = "" then .returned s
        else
          match (xs.getD 3 (.str "")).asString env.realToString with
          | none => .threw s
          | some p3 =>
            if p3 = "" then .returned s
            else
              let s := reset_work_timeout s
              let w := env.mkWork jPrm s.extraNonce true
              let w := { w with exSizeBits := s.extraNonceHexSize * 4 }
              let s := { s with current := w }
              .returned (if s.hasOnWorkReceived then s.emit (.onWorkReceived s.current) else s)
    | _ => .returned s
  else if method = "mining.set_difficulty" then
    match jPrm with
    | .arr xs =>
      match (xs.getD 0 (.int 1)).asDouble with
      | none => .threw s
      | some d =>
        let s := { s with nextWorkDifficulty := d }
        .returned (if s.nextWorkDifficulty ≤ 1 / 10000
          then { s with nextWorkDifficulty := 1 / 10000 } else s)
    | _ => .returned s
  else if method = "mining.set_extranonce" then
    match jPrm with
    | .arr xs =>
      match (xs.getD 0 (.str "")).asString env.realToString with
      | none => .threw s
      | some enonce => .returned (processExtranonce s enonce)
    | _ => .returned s
  else if method = "client.get_version" then
    let jReq := Json.setKey [] "id" (.str (toString id))
    let jReq := Json.setKey jReq "result" (.str env.projectVersion)
    let jReq :=
      if rpcVer = 1 then Json.setKey jReq "error" .null
      else if rpcVer = 2 then Json.setKey jReq "jsonrpc" (.str "2.0")
      else jReq
    .returned (sendSocketData s jReq)
  else .returned s

/-- The value `processReponse` gives `_isSuccess` when it retrieves the
essential values: `responseObject.get("error", Json::Value::null).empty()`. -/
def isSuccessOf (m : List (String × Json)) : Bool :=
  (Json.getKey m "error" .null).empty

/-- `StratumClient::processReponse`.  The non-const `responseObject[key]`
reads insert a null member when the key is absent; every later read of such
a key has null as its default, so the insertion is not carried along. -/
def processReponse (env : Env) (s : Session) (responseObject : Json) : Outcome :=
  match responseObject.members with
  | none => .threw s
  | some m =>
    let rpcVer : Nat := if Json.isMember m "jsonrpc" then 2 else 1
    match (Json.getKey m "id" (.uint 0)).asUInt with
    | none => .threw s
    | some idU =>
      let id : Int := toInt32 idU
      let isSuccess := isSuccessOf m
      match (if isSuccess then some "" else processError env responseObject) with
      | none => .threw s
      | some _errReason =>
        match (Json.getKey m "method" (.str "")).asString env.realToString with
        | none => .threw s
        | some method0 =>
          let isNotification := (idU == 0 || method0 != "")
          let method :=
            if isNotification && method0 == "" && s.conn.version == .ETHPROXY
                && (Json.getKey m "result" .null).isArray
            then "mining.notify" else method0
          if (rpcVer == 2 && (!(Json.getKey m "jsonrpc" .null).isString
                || !(Json.getKey m "jsonrpc" (.str "")).eqStr "2.0"))
              || (isNotification && ((Json.getKey m "params" .null).empty
                && (Json.getKey m "result" .null).empty))
          then .returned (disconnect s)
          else if !isNotification then
            match handleResponse env s m id isSuccess method with
            | .done o => o
            | .goOn s method isNotification =>
              if isNotification then handleNotification env s m rpcVer id method
              else .returned s
          else handleNotification env s m rpcVer id method

/-- An `energi::Solution`, by what its getters return: `getJobName()`,
`getExtraNonce()`, `getTime()` (as the `Json::Value` that `append` makes of
it), `getNonce()`, `getHashMix().GetHex()`, and the work `work_` it solves. -/
structure Solution where
  jobName : String
  extraNonce : String
  time : Json
  nonce : Nat
  hashMixHex : String
  work : Work

/-- The request `jReq` that `submitSolution` builds. -/
def submitRequest (s : Session) (solution : Solution) : List (String × Json) :=
  let jReq := Json.setKey [] "id" (.uint 4)
  let jReq := Json.setKey jReq "method" (.str "mining.submit")
  let jReq := Json.setKey jReq "params" (.arr [])
  let jReq :=
    match s.conn.version with
    | .STRATUM =>
      let jReq := Json.setKey jReq "jsonrpc" (.str "2.0")
      let jReq := Json.appendAt jReq "params" (.str s.conn.user)
      let jReq := Json.appendAt jReq "params" (.str solution.jobName)
      let jReq := Json.appendAt jReq "params" (.str solution.extraNonce)
      let jReq := Json.appendAt jReq "params" solution.time
      let jReq := Json.appendAt jReq "params" (.str (toString solution.nonce))
      let jReq := Json.appendAt jReq "params" (.str solution.hashMixHex)
      if s.worker.length ≠ 0 then Json.setKey jReq "worker" (.str s.worker) else jReq
    | .ETHPROXY =>
      let jReq := Json.setKey jReq "method" (.str "submitblock")
      let jReq := Json.appendAt jReq "params" (.str solution.jobName)
      let jReq := Json.appendAt jReq "params" (.str solution.extraNonce)
      let jReq := Json.appendAt jReq "params" solution.time
      let jReq := Json.appendAt jReq "params" (.str (toString solution.nonce))
      let jReq := Json.appendAt jReq "params" (.str solution.hashMixHex)
      if s.worker.length ≠ 0 then Json.setKey jReq "worker" (.str s.worker) else jReq
    | .ETHEREUMSTRATUM =>
      let jReq := Json.appendAt jReq "params" (.str s.conn.user)
      let jReq := Json.appendAt jReq "params" (.str solution.jobName)
      let jReq := Json.appendAt jReq "params" (.str solution.extraNonce)
      let jReq := Json.appendAt jReq "params" solution.time
      let jReq := Json.appendAt jReq "params" (.str (toString solution.nonce))
      Json.appendAt jReq "params" (.str solution.hashMixHex)
  jReq

/-- `StratumClient::submitSolution`. -/
def submitSolution (s : Session) (solution : Solution) : Session :=
  let s := s.emit .responseTimerCancel
  let s := s.emit .responseTimerArm
  let s := sendSocketData s (submitRequest s solution)
  { s with responsePending := true }

/-! ## StratumClient: connection lifecycle -/

/-- `StratumClient::connect`, as built off Windows (the `_WIN32` branch, which
can return early when the certificate store does not open, is left out).  A
fresh socket, not yet open, replaces the old one; the endpoint queue is
emptied and the host is resolved anew. -/
def connect (s : Session) : Session :=
  if s.connecting then s
  else
    let s := { s with connecting := true }
    let s := { s with connected := false }
    let s := { s with subscribed := false }
    let s := { s with authorized := false }
    let s := { s with socket := some false }
    let s := { s with endpoints := [] }
    s.emit (.asyncResolve s.conn.host s.conn.port)

/-- `StratumClient::resolve_handler`; `ec` says whether the resolver reported
an error, `results` are the endpoints its iterator yields, in order. -/
def resolve_handler (s : Session) (ec : Bool) (results : List String) : Session :=
  if !ec then
    let s := { s with endpoints := s.endpoints ++ results }
    let s := s.emit .resolverCancel
    s.emit .postStartConnect
  else
    let s := { s with connected := false }
    let s := { s with connecting := false }
    if s.hasOnDisconnected then s.emit .onDisconnected else s

/-- `StratumClient::start_connect`.  `async_connect` opens the socket when
it is not open. -/
def start_connect (s : Session) : Session :=
  match s.endpoints with
  | ep :: rest =>
    let s := { s with endpoint := ep }
    let s := { s with endpoints := rest }
    let s := s.emit .connTimerArm
    let s := s.emit (.asyncConnect s.endpoint)
    { s with socket := s.socket.map fun _ => true }
  | [] =>
    let s := { s with connecting := false }
    if s.hasOnDisconnected then s.emit .onDisconnected else s

/-- `StratumClient::check_connect_timeout`; `deadlinePassed` says whether
`m_conntimer.expires_at() <= now()`. -/
def check_connect_timeout (s : Session) (deadlinePassed : Bool) : Session :=
  if isPendingState s then
    let s :=
      if deadlinePassed then
        let s :=
          if s.connecting then
            { s.emit .socketClose with socket := s.socket.map fun _ => false }
          else s
        let s :=
          if s.disconnecting && decide (s.conn.secLevel ≠ SecureLevel.NONE) then
            if s.socket = some true then
              { s.emit .socketClose with socket := some false }
            else s
          else s
        s.emit .connTimerInfinite
      else s
    s.emit .connTimerWait
  else s

/-- `StratumClient::recvSocketData`. -/
def recvSocketData (s : Session) : Session :=
  s.emit .asyncRead

/-- The worker suffix `connect_handler` stores in `m_worker`: the characters
of the user after its first `.`, empty when there is no dot or nothing
follows it. -/
def workerSuffix (user : String) : String :=
  match user.data.dropWhile (fun c => c != '.') with
  | [] => ""
  | _ :: rest => String.mk rest

/-- The `mining.subscribe` request `connect_handler` builds. -/
def subscribeRequest (env : Env) (v : Version) : List (String × Json) :=
  let jReq := Json.setKey [] "id" (.uint 1)
  let jReq := Json.setKey jReq "method" (.str "mining.subscribe")
  let jReq := Json.setKey jReq "params" (.arr [])
  match v with
  | .STRATUM =>
    let jReq := Json.appendAt jReq "params" (.str ("energiminer " ++ env.projectVersion))
    Json.appendAt jReq "params" (.str "EnergiStratum/1.0.0")
  | .ETHPROXY => jReq
  | .ETHEREUMSTRATUM =>
    let jReq := Json.appendAt jReq "params" (.str ("energiminer " ++ env.projectVersion))
    Json.appendAt jReq "params" (.str "EnergiStratum/1.0.0")

/-- `StratumClient::connect_handler`; `ec` says whether the connect reported
an error, `hec` whether the TLS handshake (run only on a secure connection)
reported one. -/
def connect_handler (env : Env) (s : Session) (ec : Bool) (hec : Bool) : Session :=
  if s.socket ≠ some true then s.emit .postStartConnect
  else if ec then
    let s := { s.emit .socketClose with socket := some false }
    s.emit .postStartConnect
  else
    let s := { s with connecting := false }
    let s := s.emit .connTimerCancel
    if s.conn.secLevel ≠ SecureLevel.NONE ∧ hec = true then
      let s := { s with connected := false }
      let s := { s.emit .socketClose with socket := some false }
      s.emit .postStartConnect
    else
      let s := { s with connected := true }
      let s := if s.hasOnConnected then s.emit .onConnected else s
      let s := reset_work_timeout s
      let s := { s with worker := workerSuffix s.conn.user }
      let s := sendSocketData s (subscribeRequest env s.conn.version)
      recvSocketData s

/-- `StratumClient::work_timeout_handler`; `ec` says whether the wait was
cancelled. -/
def work_timeout_handler (s : Session) (ec : Bool) : Session :=
  if !ec then
    if isConnected s then disconnect s else s
  else s

/-- `StratumClient::response_timeout_handler`; `ec` says whether the wait was
cancelled. -/
def response_timeout_handler (s : Session) (ec : Bool) : Session :=
  if !ec then
    if isConnected s && s.responsePending then disconnect s else s
  else s

/-- `StratumClient::submitHashrate`: its body is commented out. -/
def submitHashrate (s : Session) (_rate : String) : Session := s

/-- `StratumClient::onRecvSocketDataCompleted`; `ec` says whether the read
reported an error, `message` is the line read and `parsed` what
`Json::Reader::parse` makes of it (`none` when it fails). -/
def onRecvSocketDataCompleted (s : Session) (ec : Bool) (bytesTransferred : Nat)
    (message : String) (parsed : Option Json) : Session :=
  if !ec && decide (bytesTransferred > 0) then
    if isConnected s then
      let s :=
        if message ≠ "" then
          match parsed with
          | some jMsg => s.emit (.postProcessReponse jMsg)
          | none => s
        else s
      recvSocketData s
    else s
  else
    if isConnected s then disconnect s else s

/-- `StratumClient::onSendSocketDataCompleted`; `ec` says whether the write
reported an error, `sslShutdown` whether that error is the TLS
protocol-is-shutdown one. -/
def onSendSocketDataCompleted (s : Session) (ec : Bool) (sslShutdown : Bool) : Session :=
  if ec then
    let s := if sslShutdown then disconnect s else s
    if isConnected s then disconnect s else s
  else s

/-- `StratumClient::onSSLShutdownCompleted`. -/
def onSSLShutdownCompleted (s : Session) : Session :=
  s.emit .postDisconnectFinalize

/-! ## Solution::getSubmitBlockData -/

/-- Modelled from the spec: `be32enc` is declared in energiminer/common.h,
which is not in src; it stores a 32-bit word as four bytes, most significant
first (the spec's big-endian normalisation of each word). -/
def be32enc (x : Nat) : List Nat :=
  [x / 16777216 % 256, x / 65536 % 256, x / 256 % 256, x % 256]

/-- The lower-case hexadecimal digit of a value below 16. -/
def hexDigit (n : Nat) : Char :=
  if n < 10 then Char.ofNat (48 + n) else Char.ofNat (87 + n)

/-- Modelled from the spec: `bin2hex` is declared in energiminer/common.h,
which is not in src; it writes each byte as two hexadecimal digits, high
nibble first. -/
def bin2hex (bytes : List Nat) : List Char :=
  match bytes with
  | [] => []
  | b :: rest => hexDigit (b / 16 % 16) :: hexDigit (b % 16) :: bin2hex rest

/-- How `getSubmitBlockData` can fail: the `WorkException` it throws, or a
read past the end of a block header shorter than 84 bytes. -/
inductive SubmitError where
  | workException
  | headerTooShort
  deriving DecidableEq

/-- `Solution::getSubmitBlockData`: every header word is overwritten by its
`be32enc` bytes, the first 84 bytes are written in hexadecimal, and the raw
transaction data follows. -/
def Solution.getSubmitBlockData (sol : Solution) : Except SubmitError String :=
  if !sol.work.valid then .error .workException
  else
    let bytes := (sol.work.blockHeader.map be32enc).flatten
    if bytes.length < 84 then .error .headerTooShort
    else
      let blockHeaderStr := String.mk (bin2hex (bytes.take 84))
      .ok (blockHeaderStr ++ sol.work.rawTransactionData)

/-- The spec's reading of one header word: its eight hexadecimal digits,
most significant first. -/
def wordHexBigEndian (w : Nat) : List Char :=
  [hexDigit (w / 268435456 % 16), hexDigit (w / 16777216 % 16),
   hexDigit (w / 1048576 % 16), hexDigit (w / 65536 % 16),
   hexDigit (w / 4096 % 16), hexDigit (w / 256 % 16),
   hexDigit (w / 16 % 16), hexDigit (w % 16)]

/-- The spec's reading of the serialized header: the words in order, each
by `wordHexBigEndian`. -/
def headerHexBigEndian (header : List Nat) : String :=
  String.mk (header.map wordHexBigEndian).flatten

/-! ## Sample data -/

/-- A sample environment: version string `1.0`, reals print as `0`, and the
work constructor keeps the extranonce as raw data. -/
def sampleEnv : Env :=
  { projectVersion := "1.0"
    realToString := fun _ => "0"
    mkWork := fun gbt extraNonce _ =>
      { valid := gbt.isArray, blockHeader := [], rawTransactionData := extraNonce,
        exSizeBits := 0 } }

/-- A sample endpoint of the given dialect, user `user.worker`, password `pass`. -/
def sampleConn (v : Version) : Conn :=
  { version := v, secLevel := .NONE, host := "pool", port := 3333,
    user := "user.worker", path := "", pass := "pass" }

/-- A sample session of the given dialect: connected over an open plain
socket, every callback set, nothing logged yet. -/
def sampleSession (v : Version) : Session :=
  { conn := sampleConn v
    connecting := false, connected := true, subscribed := false, authorized := false
    disconnecting := false, responsePending := false
    socket := some true
    endpoints := [], endpoint := "10.0.0.1:3333"
    worker := "worker"
    extraNonce := "", extraNonceHexSize := 0
    nextWorkDifficulty := 1
    current := { valid := false, blockHeader := [], rawTransactionData := "", exSizeBits := 0 }
    hasOnConnected := true, hasOnDisconnected := true, hasOnWorkReceived := true
    hasOnSolutionAccepted := true, hasOnSolutionRejected := true
    out := [] }

/-- A sample solution over a valid work with a 21-word header. -/
def sampleSolution : Solution :=
  { jobName := "j1", extraNonce := "abcd000000000000", time := .str "5a3cd2f1"
    nonce := 42, hashMixHex := "00ff"
    work :=
      { valid := true
        blockHeader := [1, 305419896, 4294967295] ++ List.replicate 18 0
        rawTransactionData := "0100"
        exSizeBits := 16 } }

/-- The initial session on an endpoint: every status flag false, no socket,
no endpoint resolved, every callback set, nothing logged. -/
def initialSession (c : Conn) : Session :=
  { conn := c
    connecting := false, connected := false, subscribed := false, authorized := false
    disconnecting := false, responsePending := false
    socket := none
    endpoints := [], endpoint := ""
    worker := ""
    extraNonce := "", extraNonceHexSize := 0
    nextWorkDifficulty := 1
    current := { valid := false, blockHeader := [], rawTransactionData := "", exSizeBits := 0 }
    hasOnConnected := true, hasOnDisconnected := true, hasOnWorkReceived := true
    hasOnSolutionAccepted := true, hasOnSolutionRejected := true
    out := [] }

/-! ## The spec's vocabulary -/

/-- The spec's submit table, column `method`. -/
def specSubmitMethod : Version → String
  | .STRATUM => "mining.submit"
  | .ETHPROXY => "submitblock"
  | .ETHEREUMSTRATUM => "mining.submit"

/-- The spec's `[job_name, extra_nonce, time, nonce_str, hash_mix_hex]`. -/
def specSolutionParams (sol : Solution) : List Json :=
  [.str sol.jobName, .str sol.extraNonce, sol.time, .str (toString sol.nonce),
   .str sol.hashMixHex]

/-- The spec's submit table, column `params order`. -/
def specSubmitParams (user : String) (sol : Solution) : Version → List Json
  | .STRATUM => .str user :: specSolutionParams sol
  | .ETHPROXY => specSolutionParams sol
  | .ETHEREUMSTRATUM => .str user :: specSolutionParams sol

/-- The message's `id` converts to `n` (`asUInt`); the JSON number `n` does. -/
def HasId (m : List (String × Json)) (n : Nat) : Prop :=
  (Json.getKey m "id" (.uint 0)).asUInt = some n

/-- The message has no `method` member. -/
def NoMethod (m : List (String × Json)) : Prop :=
  m.lookup "method" = none

/-- The message's `error` member is absent or null. -/
def NoError (m : List (String × Json)) : Prop :=
  m.lookup "error" = none ∨ m.lookup "error" = some .null

/-- The message is well framed: it has no `jsonrpc` member, or that member
is the string `2.0`. -/
def WellFramed (m : List (String × Json)) : Prop :=
  m.lookup "jsonrpc" = none ∨ m.lookup "jsonrpc" = some (.str "2.0")

/-- The client's `_isSuccess`: the `error` member is absent, null, or an
array or object with no element. -/
def IsSuccess (m : List (String × Json)) : Prop :=
  (Json.getKey m "error" .null).empty = true

/-- The message carries an error the client renders: its `error` member is
not empty and `processError` returns a reason for it. -/
def HasError (env : Env) (m : List (String × Json)) : Prop :=
  (Json.getKey m "error" .null).empty = false ∧ (processError env (.obj m)).isSome = true

/-- A JSON scalar: a value `asString()` converts (anything but an array or
an object). -/
def Json.isScalar : Json → Bool
  | .arr _ => false
  | .obj _ => false
  | _ => true

/-- An `error` member that `processError` renders as a non-empty reason: a
non-empty string, a non-empty array of scalars, or a non-empty object whose
members are scalars. -/
def NonEmptyError : Json → Prop
  | .str t => t ≠ ""
  | .arr xs => xs ≠ [] ∧ ∀ x ∈ xs, x.isScalar = true
  | .obj kvs => kvs ≠ [] ∧ ∀ p ∈ kvs, p.2.isScalar = true
  | _ => False

/-- Whether an effect is a firing of `on_disconnected`. -/
def Effect.isOnDisconnected : Effect → Bool
  | .onDisconnected => true
  | _ => false

/-- Whether an effect is an entry into `disconnect()`. -/
def Effect.isDisconnectCall : Effect → Bool
  | .disconnectCall => true
  | _ => false

/-- How many times `on_disconnected` has fired in a log. -/
def firedDisconnected (es : List Effect) : Nat :=
  es.countP Effect.isOnDisconnected

/-- The session a `Dispatch` carries. -/
def Dispatch.session : Dispatch → Session
  | .done o => o.session
  | .goOn s _ _ => s

/-- The difficulty floor `0.0001`, as an exact rational. -/
def difficultyFloor : ℚ := 1 / 10000

/-- Between the sessions `s` and `t` a `disconnect()` was entered: the log of
`t` is the log of `s` followed by effects among which is that entry. -/
def CallsDisconnect (s t : Session) : Prop :=
  ∃ pre rest, t.out = s.out ++ pre ++ Effect.disconnectCall :: rest

/-- The `id` a message carries, as `processReponse` reads it (`asUInt`);
`none` when the read throws. -/
def msgId (msg : Json) : Option Nat :=
  match msg.members with
  | none => none
  | some m => (Json.getKey m "id" (.uint 0)).asUInt

/-- A step of the session: an inbound message handled by `processReponse`,
a completion handler or timer expiry run by the event loop, or a call of
the consumer API. -/
inductive Event where
  | message (msg : Json)
  | resolved (ec : Bool) (results : List String)
  | startConnect
  | connectDone (ec hec : Bool)
  | connectTimer (deadlinePassed : Bool)
  | workTimer (ec : Bool)
  | responseTimer (ec : Bool)
  | received (ec : Bool) (bytesTransferred : Nat) (message : String) (parsed : Option Json)
  | sent (ec sslShutdown : Bool)
  | sslShutdownDone
  | finalize
  | apiConnect
  | apiDisconnect
  | apiSubmitSolution (solution : Solution)
  | apiSubmitHashrate (rate : String)

/-- The session after one step. -/
def step (env : Env) (s : Session) : Event → Session
  | .message msg => (processReponse env s msg).session
  | .resolved ec results => resolve_handler s ec results
  | .startConnect => start_connect s
  | .connectDone ec hec => connect_handler env s ec hec
  | .connectTimer deadlinePassed => check_connect_timeout s deadlinePassed
  | .workTimer ec => work_timeout_handler s ec
  | .responseTimer ec => response_timeout_handler s ec
  | .received ec n message parsed => onRecvSocketDataCompleted s ec n message parsed
  | .sent ec sslShutdown => onSendSocketDataCompleted s ec sslShutdown
  | .sslShutdownDone => onSSLShutdownCompleted s
  | .finalize => disconnect_finalize s
  | .apiConnect => connect s
  | .apiDisconnect => disconnect s
  | .apiSubmitSolution solution => submitSolution s solution
  | .apiSubmitHashrate rate => submitHashrate s rate

/-- The step is the handling of a reply to a submission: a message whose id
reads as 4 and which has no method. -/
def IsSubmitReply (env : Env) : Event → Prop
  | .message msg =>
    ∃ m, msg.members = some m ∧ HasId m 4 ∧
      (Json.getKey m "method" (.str "")).asString env.realToString = some ""
  | _ => False

/-- The success classification of a message (`isSuccessOf` of its members);
false when the message has no members to read. -/
def msgSuccess (msg : Json) : Bool :=
  match msg.members with
  | none => false
  | some m => isSuccessOf m

/-- The message arrives in handshake order for the session: a message with
id 3 only once subscribed, and a message with id 1 that carries an error
only while not authorized. -/
def InOrder (s : Session) (msg : Json) : Prop :=
  (msgId msg = some 3 → s.subscribed = true) ∧
  (msgId msg = some 1 → s.authorized = true → msgSuccess msg = true)

/-- The messages handled one after the other by `processReponse`, each on the
session the one before left. -/
def handleAll (env : Env) : Session → List Json → Session
  | s, [] => s
  | s, msg :: rest => handleAll env (processReponse env s msg).session rest

/-- Every message of the run arrives in handshake order for the session it
is handled on. -/
def InOrderRun (env : Env) : Session → List Json → Prop
  | _, [] => True
  | s, msg :: rest => InOrder s msg ∧ InOrderRun env (processReponse env s msg).session rest

/-- How a connection attempt on one endpoint fails. -/
inductive AttemptFailure where
  | connectError
  | connectTimeout
  | handshakeFailure

/-- The events of one failed attempt on the endpoint `start_connect` has just
taken, up to the posting of the next `start_connect`: the connect completes
with an error; or the connect timer expires and the aborted connect then
completes; or the connect succeeds and the TLS handshake fails. -/
def failAttempt (env : Env) (s : Session) : AttemptFailure → Session
  | .connectError => connect_handler env s true false
  | .connectTimeout => connect_handler env (check_connect_timeout s true) true false
  | .handshakeFailure => connect_handler env s false true

/-- Whether an effect is the posting of a `start_connect` task. -/
def Effect.isPostStartConnect : Effect → Bool
  | .postStartConnect => true
  | _ => false

/-- Whether an effect is an `async_connect` on the socket. -/
def Effect.isAsyncConnect : Effect → Bool
  | .asyncConnect _ => true
  | _ => false

/-- The effects a handler added to the log when it took the session from
`before` to `after`. -/
def addedEffects (before after : Session) : List Effect :=
  after.out.drop before.out.length

/-- The event loop while the attempts fail, once a handler has taken the
session from `before` to `s`.  The loop runs `start_connect` only if that
handler posted it; the completion handler of the attempt then runs, failing
as the next entry says, only if `start_connect` issued an `async_connect`;
and the loop goes on from that handler in the same way.  It stops when
nothing is posted, when no connect is outstanding, or when the failures are
used up. -/
def tryEndpoints (env : Env) : Session → Session → List AttemptFailure → Session
  | before, s, [] =>
    if (addedEffects before s).any Effect.isPostStartConnect then start_connect s else s
  | before, s, f :: fs =>
    if (addedEffects before s).any Effect.isPostStartConnect then
      let t := start_connect s
      if (addedEffects s t).any Effect.isAsyncConnect then
        tryEndpoints env t (failAttempt env t f) fs
      else t
    else s

/-- The endpoints a log shows `async_connect` was issued on, in order. -/
def connectAttempts : List Effect → List String
  | [] => []
  | .asyncConnect ep :: es => ep :: connectAttempts es
  | _ :: es => connectAttempts es

/-- The connection events of a log, in order: `none` for a posted
`start_connect` task, `some ep` for an `async_connect` on the endpoint `ep`. -/
def attemptTrace : List Effect → List (Option String)
  | [] => []
  | .postStartConnect :: es => none :: attemptTrace es
  | .asyncConnect ep :: es => some ep :: attemptTrace es
  | _ :: es => attemptTrace es

/-- The connection events of a run that tries the endpoints of a queue one at
a time: for each endpoint its `async_connect`, then the posting of the next
`start_connect`. -/
def oneAtATime : List String → List (Option String)
  | [] => []
  | ep :: eps => some ep :: none :: oneAtATime eps

/-- The session once `connect()` has run through a successful resolve (the
endpoints `results`) and a successful connect, and handshake, on the first
endpoint: `connect`, `resolve_handler`, the posted `start_connect`, then
`connect_handler` without error. -/
def afterConnect (env : Env) (s0 : Session) (results : List String) : Session :=
  connect_handler env (start_connect (resolve_handler (connect s0) false results)) false false

/-- The session once `disconnect()` has run to completion: on a secure
connection whose shutdown was started, `onSSLShutdownCompleted` and the
`disconnect_finalize` it posts follow. -/
def disconnectToCompletion (s : Session) : Session :=
  let t := disconnect s
  if t.disconnecting = true ∧ t.socket = some true ∧ t.conn.secLevel ≠ SecureLevel.NONE then
    disconnect_finalize (onSSLShutdownCompleted t)
  else t

/-! ## Lemmas -/

theorem toInt32_of_lt (n : Nat) (h : n < 2147483648) : toInt32 n = (n : Int) := by
  have h1 : n % 4294967296 = n := Nat.mod_eq_of_lt (by omega)
  rw [toInt32, h1, if_pos h]

theorem string_length_ne_zero (w : String) : w.length ≠ 0 ↔ w ≠ "" := by
  obtain ⟨l⟩ := w
  rw [Ne, Ne, String.ext_iff, String.length_mk, List.length_eq_zero]

theorem bin2hex_append (xs ys : List Nat) : bin2hex (xs ++ ys) = bin2hex xs ++ bin2hex ys := by
  induction xs with
  | nil => rfl
  | cons x xs ih => simp [bin2hex, ih]

theorem bin2hex_be32enc (w : Nat) : bin2hex (be32enc w) = wordHexBigEndian w := by
  have h1 : w / 16777216 % 256 / 16 % 16 = w / 268435456 % 16 := by omega
  have h2 : w / 16777216 % 256 % 16 = w / 16777216 % 16 := by omega
  have h3 : w / 65536 % 256 / 16 % 16 = w / 1048576 % 16 := by omega
  have h4 : w / 65536 % 256 % 16 = w / 65536 % 16 := by omega
  have h5 : w / 256 % 256 / 16 % 16 = w / 4096 % 16 := by omega
  have h6 : w / 256 % 256 % 16 = w / 256 % 16 := by omega
  have h7 : w % 256 / 16 % 16 = w / 16 % 16 := by omega
  have h8 : w % 256 % 16 = w % 16 := by omega
  simp only [be32enc, bin2hex, wordHexBigEndian, h1, h2, h3, h4, h5, h6, h7, h8]

theorem bin2hex_header (header : List Nat) :
    bin2hex (header.map be32enc).flatten = (header.map wordHexBigEndian).flatten := by
  induction header with
  | nil => rfl
  | cons w ws ih =>
    simp only [List.map_cons, List.flatten_cons, bin2hex_append, bin2hex_be32enc, ih]

theorem length_flatten_be32enc (header : List Nat) :
    (header.map be32enc).flatten.length = 4 * header.length := by
  induction header with
  | nil => rfl
  | cons w ws ih =>
    simp only [List.map_cons, List.flatten_cons, List.length_append, ih, be32enc,
      List.length_cons, List.length_nil]
    omega

theorem length_flatten_wordHex (header : List Nat) :
    (header.map wordHexBigEndian).flatten.length = 8 * header.length := by
  induction header with
  | nil => rfl
  | cons w ws ih =>
    simp only [List.map_cons, List.flatten_cons, List.length_append, ih, wordHexBigEndian,
      List.length_cons, List.length_nil]
    omega

theorem errReason_some (env : Env) (m : List (String × Json))
    (herr : (Json.getKey m "error" .null).empty = true ∨ (processError env (.obj m)).isSome) :
    ∃ r, (if (Json.getKey m "error" .null).empty = true then some ""
      else processError env (.obj m)) = some r := by
  rcases herr with h | h
  · exact ⟨"", by rw [if_pos h]⟩
  · by_cases h2 : (Json.getKey m "error" .null).empty = true
    · exact ⟨"", by rw [if_pos h2]⟩
    · rw [if_neg h2]
      exact Option.isSome_iff_exists.mp h

theorem wellFramed_check (m : List (String × Json)) (hframe : WellFramed m)
    (hmem : Json.isMember m "jsonrpc" = true) :
    (Json.getKey m "jsonrpc" .null).isString = true ∧
    (Json.getKey m "jsonrpc" (.str "")).eqStr "2.0" = true := by
  rcases hframe with h | h
  · simp [Json.isMember, h] at hmem
  · simp [Json.getKey, h, Json.isString, Json.eqStr]

/-- A well-framed message with a non-zero id and no method goes through the
`switch (_id)` and, if that morphs it, through the notification part. -/
theorem processReponse_of_response (env : Env) (s : Session) (m : List (String × Json))
    (n : Nat) (hid : HasId m n) (hn : n ≠ 0) (hmeth : NoMethod m) (hframe : WellFramed m)
    (herr : (Json.getKey m "error" .null).empty = true ∨ (processError env (.obj m)).isSome) :
    processReponse env s (.obj m) =
      match handleResponse env s m (toInt32 n) (Json.getKey m "error" .null).empty "" with
      | .done o => o
      | .goOn s method isNotification =>
        if isNotification then
          handleNotification env s m (if Json.isMember m "jsonrpc" then 2 else 1) (toInt32 n)
            method
        else .returned s := by
  have hm : Json.getKey m "method" (.str "") = .str "" := by
    simp [Json.getKey, show m.lookup "method" = none from hmeth]
  obtain ⟨r, he⟩ := errReason_some env m herr
  have hid2 : (Json.getKey m "id" (.uint 0)).asUInt = some n := hid
  unfold processReponse
  simp only [isSuccessOf, Json.members, hid2, he, hm, Json.asString]
  by_cases hmem : Json.isMember m "jsonrpc" = true
  · obtain ⟨h1, h2⟩ := wellFramed_check m hframe hmem
    simp [hmem, h1, h2, hn]
  · simp [hmem, hn]

/-- A well-framed message with a method and non-empty params goes to the
notification part with that method. -/
theorem processReponse_of_notification (env : Env) (s : Session) (m : List (String × Json))
    (n : Nat) (method : String) (hid : HasId m n)
    (hmeth : m.lookup "method" = some (.str method)) (hne : method ≠ "")
    (hframe : WellFramed m)
    (herr : (Json.getKey m "error" .null).empty = true ∨ (processError env (.obj m)).isSome)
    (hprm : (Json.getKey m "params" .null).empty = false) :
    processReponse env s (.obj m) =
      handleNotification env s m (if Json.isMember m "jsonrpc" then 2 else 1) (toInt32 n)
        method := by
  have hm : Json.getKey m "method" (.str "") = .str method := by
    simp [Json.getKey, hmeth]
  obtain ⟨r, he⟩ := errReason_some env m herr
  have hid2 : (Json.getKey m "id" (.uint 0)).asUInt = some n := hid
  unfold processReponse
  simp only [isSuccessOf, Json.members, hid2, he, hm, Json.asString]
  by_cases hmem : Json.isMember m "jsonrpc" = true
  · obtain ⟨h1, h2⟩ := wellFramed_check m hframe hmem
    simp [hmem, h1, h2, hne, hprm]
  · simp [hmem, hne, hprm]

theorem noError_empty (m : List (String × Json)) (h : NoError m) :
    (Json.getKey m "error" .null).empty = true := by
  rcases h with h | h <;> simp [Json.getKey, h, Json.empty]

theorem disconnect_authorized (s : Session) (h : s.authorized = false) :
    (disconnect s).authorized = false := by
  unfold disconnect disconnect_finalize
  simp only [Session.emit]
  split_ifs <;> simp_all

theorem disconnect_out (s : Session) :
    ∃ rest, (disconnect s).out = s.out ++ .disconnectCall :: rest := by
  unfold disconnect disconnect_finalize
  simp only [Session.emit]
  split_ifs <;> simp

theorem reevaluate_of_ne (r : Json) (h : r ≠ .bool false) : reevaluate true r = true := by
  cases r with
  | bool b =>
    cases b with
    | false => exact absurd rfl h
    | true => rfl
  | null => rfl
  | int i => rfl
  | uint n => rfl
  | real q => rfl
  | str t => rfl
  | arr xs => rfl
  | obj kvs => rfl

theorem reevaluate_false (r : Json) : reevaluate false r = false := by
  cases r <;> rfl

/-! ## Claims -/

/-- C9: for an extranonce of length `n ≤ 16`, `processExtranonce` records
`extra_nonce_hex_size = n` and stores the extranonce followed by exactly
`16 - n` characters `'0'`, so the extranonce is a prefix of what is stored;
`"abcd"` gives size 4 and `"abcd000000000000"`. -/
theorem processExtranonce_pads (s : Session) (enonce : String) (h : enonce.length ≤ 16) :
    (processExtranonce s enonce).extraNonceHexSize = enonce.length ∧
    (processExtranonce s enonce).extraNonce
      = enonce ++ String.mk (List.replicate (16 - enonce.length) '0') ∧
    enonce.data <+: (processExtranonce s enonce).extraNonce.data ∧
    (processExtranonce s "abcd").extraNonceHexSize = 4 ∧
    (processExtranonce s "abcd").extraNonce = "abcd000000000000" := by
  have h1 : toInt32 enonce.length = (enonce.length : Int) := toInt32_of_lt _ (by omega)
  have h2 : ((16 : Int) - (enonce.length : Int)).toNat = 16 - enonce.length := by omega
  refine ⟨rfl, ?_, ?_, rfl, rfl⟩
  · simp only [processExtranonce, h1, h2]
  · simp only [processExtranonce, String.data_append]
    exact List.prefix_append _ _

/-- Witness of C9 at the 6-character extranonce `"12ab34"`. -/
theorem processExtranonce_pads_witness :
    (processExtranonce (sampleSession .ETHEREUMSTRATUM) "12ab34").extraNonceHexSize = 6 ∧
    (processExtranonce (sampleSession .ETHEREUMSTRATUM) "12ab34").extraNonce
      = "12ab34" ++ String.mk (List.replicate (16 - 6) '0') :=
  have h := processExtranonce_pads (sampleSession .ETHEREUMSTRATUM) "12ab34" (by decide)
  ⟨h.1, h.2.1⟩

/-- C10, counterexample: a 17-character extranonce is stored as it is, so
the stored extranonce has length 17, not 16. -/
theorem processExtranonce_length_counterexample :
    (processExtranonce (sampleSession .ETHEREUMSTRATUM) "0123456789abcdef0").extraNonce
      = "0123456789abcdef0" ∧
    (processExtranonce (sampleSession .ETHEREUMSTRATUM) "0123456789abcdef0").extraNonce.length
      = 17 := by
  decide

/-- C10, amended: for an extranonce of length `n < 2^31` the stored extranonce
has length `max n 16`: exactly 16 when `n ≤ 16`, and `n` (nothing is cut off)
when `n > 16`. -/
theorem processExtranonce_length (s : Session) (enonce : String)
    (h : enonce.length < 2147483648) :
    (processExtranonce s enonce).extraNonce.length = max enonce.length 16 := by
  simp only [processExtranonce, toInt32_of_lt _ h, String.length_append, String.length_mk,
    List.length_replicate]
  omega

/-- Witness of amended C10 at the 4-character extranonce `"abcd"`. -/
theorem processExtranonce_length_witness :
    (processExtranonce (sampleSession .ETHEREUMSTRATUM) "abcd").extraNonce.length
      = max "abcd".length 16 :=
  processExtranonce_length (sampleSession .ETHEREUMSTRATUM) "abcd" (by decide)

/-- C4: on a valid work with an 84-byte (21-word) header `getSubmitBlockData`
returns the 168 hexadecimal characters of the header, each 32-bit word most
significant byte first, followed by the raw transaction data and nothing
else; on a work that is not valid it fails with `WorkException` and returns
no string. -/
theorem getSubmitBlockData_spec (sol : Solution) :
    (sol.work.valid = true → sol.work.blockHeader.length = 21 →
      sol.getSubmitBlockData
        = .ok (headerHexBigEndian sol.work.blockHeader ++ sol.work.rawTransactionData) ∧
      (headerHexBigEndian sol.work.blockHeader).length = 168) ∧
    (sol.work.valid = false → sol.getSubmitBlockData = .error .workException) := by
  constructor
  · intro hv hlen
    have hl : (sol.work.blockHeader.map be32enc).flatten.length = 84 := by
      rw [length_flatten_be32enc, hlen]
    constructor
    · simp only [Solution.getSubmitBlockData, hv, hl, headerHexBigEndian]
      rw [← hl, List.take_length, bin2hex_header]
      simp
    · simp only [headerHexBigEndian, String.length_mk, length_flatten_wordHex, hlen]
  · intro hv
    simp [Solution.getSubmitBlockData, hv]

set_option maxRecDepth 8000 in
/-- Witness of C4 at the sample solution, whose header starts with the words
`1`, `0x12345678`, `0xffffffff`, and at the same solution with its work
marked not valid. -/
theorem getSubmitBlockData_spec_witness :
    sampleSolution.getSubmitBlockData
      = .ok ("0000000112345678ffffffff" ++ String.mk (List.replicate 144 '0') ++ "0100") ∧
    Solution.getSubmitBlockData
        { sampleSolution with work := { sampleSolution.work with valid := false } }
      = .error .workException :=
  ⟨((getSubmitBlockData_spec sampleSolution).1 rfl rfl).1.trans
      (congrArg Except.ok (by decide)),
   (getSubmitBlockData_spec
      { sampleSolution with work := { sampleSolution.work with valid := false } }).2 rfl⟩

/-- C3: on a connected session `submitSolution` re-arms the response timer
and then sends exactly one request; it has id 4, the method and the params
of the spec's table for the dialect, and a top-level `worker` key (the
worker suffix) exactly when the dialect is STRATUM or ETHPROXY and the
suffix is not empty. -/
theorem submitSolution_request (s : Session) (sol : Solution) (hc : isConnected s = true) :
    submitSolution s sol
      = { s with
          responsePending := true
          out := s.out ++ [.responseTimerCancel, .responseTimerArm,
                           .send (.obj (submitRequest s sol))] } ∧
    (submitRequest s sol).lookup "id" = some (.uint 4) ∧
    (submitRequest s sol).lookup "method" = some (.str (specSubmitMethod s.conn.version)) ∧
    (submitRequest s sol).lookup "params"
      = some (.arr (specSubmitParams s.conn.user sol s.conn.version)) ∧
    (submitRequest s sol).lookup "worker"
      = (if (s.conn.version = .STRATUM ∨ s.conn.version = .ETHPROXY) ∧ s.worker ≠ ""
         then some (.str s.worker) else none) := by
  have hc2 : isConnected ((s.emit .responseTimerCancel).emit .responseTimerArm) = true := hc
  have hw := string_length_ne_zero s.worker
  constructor
  · simp only [submitSolution, sendSocketData, hc2]
    simp [Session.emit, submitRequest]
  · cases hv : s.conn.version <;> by_cases hw0 : s.worker = ""
    all_goals
      have hw1 := hw0
      rw [← (not_iff_not.mp hw : s.worker.length = 0 ↔ s.worker = "")] at hw1
      simp [submitRequest, hv, hw0, hw1, Json.setKey, Json.keyLt, Json.appendAt,
        specSubmitMethod, specSubmitParams, specSolutionParams, List.lookup]

/-- Witness of C3 at the connected ETHPROXY sample session: one frame goes
out after the timer is re-armed, and it is the `submitblock` request. -/
theorem submitSolution_request_witness :
    (submitSolution (sampleSession .ETHPROXY) sampleSolution).out
      = [.responseTimerCancel, .responseTimerArm,
         .send (.obj (submitRequest (sampleSession .ETHPROXY) sampleSolution))] ∧
    submitRequest (sampleSession .ETHPROXY) sampleSolution
      = [("id", .uint 4), ("method", .str "submitblock"),
         ("params", .arr [.str "j1", .str "abcd000000000000", .str "5a3cd2f1", .str "42",
                          .str "00ff"]),
         ("worker", .str "worker")] :=
  have h := submitSolution_request (sampleSession .ETHPROXY) sampleSolution rfl
  ⟨by rw [h.1]; rfl, rfl⟩

/-- C5: under STRATUM, on a connected session, a well-framed reply with
id 1, no method and an absent or null error sets `subscribed`, does not
disconnect, and sends exactly one request: id 3, `mining.authorize`, params
`[user ++ path, pass]`. -/
theorem subscribe_reply_stratum (env : Env) (s : Session) (m : List (String × Json))
    (hv : s.conn.version = .STRATUM) (hc : isConnected s = true)
    (hid : HasId m 1) (hmeth : NoMethod m) (herr : NoError m) (hframe : WellFramed m) :
    processReponse env s (.obj m)
      = .returned
          { s with
            subscribed := true
            out := s.out ++
              [.send (.obj [("id", .uint 3), ("jsonrpc", .str "2.0"),
                            ("method", .str "mining.authorize"),
                            ("params", .arr [.str (s.conn.user ++ s.conn.path),
                                             .str s.conn.pass])])] } := by
  have he := noError_empty m herr
  have hc2 : isConnected { s with subscribed := true } = true := hc
  rw [processReponse_of_response env s m 1 hid (by decide) hmeth hframe (Or.inl he)]
  simp [handleResponse, toInt32_of_lt, responseCase1, hv, he, sendSocketData, hc2,
    Session.emit, Json.setKey, Json.keyLt, Json.appendAt, List.lookup]

/-- Witness of C5 at the reply `{"error":null,"id":1,"result":true}` on the
connected STRATUM sample session. -/
theorem subscribe_reply_stratum_witness :
    processReponse sampleEnv (sampleSession .STRATUM)
        (.obj [("error", .null), ("id", .int 1), ("result", .bool true)])
      = .returned
          { sampleSession .STRATUM with
            subscribed := true
            out := [.send (.obj [("id", .uint 3), ("jsonrpc", .str "2.0"),
                                 ("method", .str "mining.authorize"),
                                 ("params", .arr [.str "user.worker", .str "pass"])])] } :=
  subscribe_reply_stratum sampleEnv (sampleSession .STRATUM)
    [("error", .null), ("id", .int 1), ("result", .bool true)]
    rfl rfl rfl rfl (Or.inr rfl) (Or.inl rfl)

/-- C6: under ETHEREUMSTRATUM, on a connected session, a well-framed
successful reply with id 1 whose result is an array with the string `e` at
index 1 sets `subscribed`, sets `next_work_difficulty` to 1, applies
`processExtranonce` to `e`, and sends exactly two requests in this order:
id 2 `mining.extranonce.subscribe` with empty params, then id 3
`mining.authorize` with params `[user ++ path, pass]`. -/
theorem subscribe_reply_ethereumstratum (env : Env) (s : Session)
    (m : List (String × Json)) (x0 : Json) (e : String) (rest : List Json)
    (hv : s.conn.version = .ETHEREUMSTRATUM) (hc : isConnected s = true)
    (hid : HasId m 1) (hmeth : NoMethod m) (herr : NoError m) (hframe : WellFramed m)
    (hres : m.lookup "result" = some (.arr (x0 :: .str e :: rest))) :
    processReponse env s (.obj m)
      = .returned
          { processExtranonce { s with subscribed := true, nextWorkDifficulty := 1 } e with
            out := s.out ++
              [.send (.obj [("id", .uint 2), ("method", .str "mining.extranonce.subscribe"),
                            ("params", .arr [])]),
               .send (.obj [("id", .uint 3), ("method", .str "mining.authorize"),
                            ("params", .arr [.str (s.conn.user ++ s.conn.path),
                                             .str s.conn.pass])])] } := by
  have he := noError_empty m herr
  have hc2 : isConnected (processExtranonce
      { s with subscribed := true, nextWorkDifficulty := 1 } e) = true := hc
  have hc3 : ∀ fr, isConnected ((processExtranonce
      { s with subscribed := true, nextWorkDifficulty := 1 } e).emit fr) = true :=
    fun _ => hc
  have hres2 : Json.getKey m "result" .null = .arr (x0 :: .str e :: rest) := by
    simp [Json.getKey, hres]
  rw [processReponse_of_response env s m 1 hid (by decide) hmeth hframe (Or.inl he)]
  simp [handleResponse, toInt32_of_lt, responseCase1, hv, he, sendSocketData, hc2, hc3,
    authorizeOn, hres2, Json.asString,
    Json.setKey, Json.keyLt, Json.appendAt, List.lookup]
  simp [Session.emit, processExtranonce]

/-- Witness of C6 at the reply `{"id":1,"result":[["mining.notify","sid"],"abcd"]}`
on the connected ETHEREUMSTRATUM sample session: extranonce size 4, extranonce
`abcd000000000000`, then the requests with id 2 and id 3. -/
theorem subscribe_reply_ethereumstratum_witness :
    processReponse sampleEnv (sampleSession .ETHEREUMSTRATUM)
        (.obj [("id", .int 1),
               ("result", .arr [.arr [.str "mining.notify", .str "sid"], .str "abcd"])])
      = .returned
          { sampleSession .ETHEREUMSTRATUM with
            subscribed := true
            nextWorkDifficulty := 1
            extraNonceHexSize := 4
            extraNonce := "abcd000000000000"
            out :=
              [.send (.obj [("id", .uint 2), ("method", .str "mining.extranonce.subscribe"),
                            ("params", .arr [])]),
               .send (.obj [("id", .uint 3), ("method", .str "mining.authorize"),
                            ("params", .arr [.str "user.worker", .str "pass"])])] } :=
  subscribe_reply_ethereumstratum sampleEnv (sampleSession .ETHEREUMSTRATUM)
    [("id", .int 1),
     ("result", .arr [.arr [.str "mining.notify", .str "sid"], .str "abcd"])]
    (.arr [.str "mining.notify", .str "sid"]) "abcd" []
    rfl rfl rfl rfl (Or.inl rfl) (Or.inl rfl) rfl

/-- C7, counterexample: on the connected STRATUM sample session a reply with
id 3, no method and no error whose result is absent, null, `0` or the empty
string leaves the session authorized and does not call `disconnect()` (the
log stays empty), where the claim has `authorized` false and a disconnect. -/
theorem authorize_reply_counterexample :
    processReponse sampleEnv (sampleSession .STRATUM) (.obj [("id", .int 3)])
      = .returned { sampleSession .STRATUM with authorized := true } ∧
    processReponse sampleEnv (sampleSession .STRATUM)
        (.obj [("id", .int 3), ("result", .null)])
      = .returned { sampleSession .STRATUM with authorized := true } ∧
    processReponse sampleEnv (sampleSession .STRATUM)
        (.obj [("id", .int 3), ("result", .int 0)])
      = .returned { sampleSession .STRATUM with authorized := true } ∧
    processReponse sampleEnv (sampleSession .STRATUM)
        (.obj [("id", .int 3), ("result", .str "")])
      = .returned { sampleSession .STRATUM with authorized := true } ∧
    ({ sampleSession .STRATUM with authorized := true } : Session).out = [] :=
  ⟨rfl, rfl, rfl, rfl, rfl⟩

/-- C7, amended: for a well-framed reply with id 3 and no method: if the
error member is absent, null or an empty array or object and the result is
anything but the boolean false, `authorized` becomes true and `disconnect()`
is not called; if the result is the boolean false (error absent or empty),
or the error member is not empty and `processError` renders it, `authorized`
becomes false and `disconnect()` is called. -/
theorem authorize_reply (env : Env) (s : Session) (m : List (String × Json))
    (hid : HasId m 3) (hmeth : NoMethod m) (hframe : WellFramed m) :
    ((IsSuccess m ∧ Json.getKey m "result" .null ≠ .bool false) →
      processReponse env s (.obj m) = .returned { s with authorized := true }) ∧
    (((IsSuccess m ∧ Json.getKey m "result" .null = .bool false) ∨ HasError env m) →
      processReponse env s (.obj m) = .returned (disconnect { s with authorized := false }) ∧
      (disconnect { s with authorized := false }).authorized = false ∧
      ∃ rest, (disconnect { s with authorized := false }).out
        = s.out ++ .disconnectCall :: rest) := by
  constructor
  · rintro ⟨he, hr⟩
    rw [processReponse_of_response env s m 3 hid (by decide) hmeth hframe (Or.inl he)]
    simp [handleResponse, toInt32_of_lt, show (Json.getKey m "error" .null).empty = true from he,
      reevaluate_of_ne _ hr]
  · intro h
    refine ⟨?_, disconnect_authorized _ rfl, disconnect_out _⟩
    rcases h with ⟨he, hr⟩ | ⟨he, hp⟩
    · rw [processReponse_of_response env s m 3 hid (by decide) hmeth hframe (Or.inl he)]
      simp [handleResponse, toInt32_of_lt,
        show (Json.getKey m "error" .null).empty = true from he, hr, reevaluate]
    · rw [processReponse_of_response env s m 3 hid (by decide) hmeth hframe (Or.inr hp)]
      simp [handleResponse, toInt32_of_lt, he, reevaluate_false]

/-- Witness of amended C7 on the connected STRATUM sample session: result
true authorizes; result false, or an error string, deauthorizes and
disconnects. -/
theorem authorize_reply_witness :
    processReponse sampleEnv (sampleSession .STRATUM)
        (.obj [("id", .int 3), ("result", .bool true)])
      = .returned { sampleSession .STRATUM with authorized := true } ∧
    processReponse sampleEnv (sampleSession .STRATUM)
        (.obj [("id", .int 3), ("result", .bool false)])
      = .returned (disconnect { sampleSession .STRATUM with authorized := false }) ∧
    processReponse sampleEnv (sampleSession .STRATUM)
        (.obj [("error", .str "unauthorized worker"), ("id", .int 3), ("result", .null)])
      = .returned (disconnect { sampleSession .STRATUM with authorized := false }) :=
  ⟨(authorize_reply sampleEnv (sampleSession .STRATUM)
      [("id", .int 3), ("result", .bool true)] rfl rfl (Or.inl rfl)).1
      ⟨rfl, by simp [Json.getKey, List.lookup]⟩,
   ((authorize_reply sampleEnv (sampleSession .STRATUM)
      [("id", .int 3), ("result", .bool false)] rfl rfl (Or.inl rfl)).2
      (Or.inl ⟨rfl, rfl⟩)).1,
   ((authorize_reply sampleEnv (sampleSession .STRATUM)
      [("error", .str "unauthorized worker"), ("id", .int 3), ("result", .null)]
      rfl rfl (Or.inl rfl)).2
      (Or.inr ⟨rfl, rfl⟩)).1⟩

/-- C8, counterexample: on the connected STRATUM sample session the reply
`{"error":[],"id":4,"result":true}`, whose error is not null, fires
`on_solution_accepted(true)` and no `on_solution_rejected`. -/
theorem submit_reply_counterexample :
    processReponse sampleEnv (sampleSession .STRATUM)
        (.obj [("error", .arr []), ("id", .int 4), ("result", .bool true)])
      = .returned
          { sampleSession .STRATUM with
            responsePending := false
            out := [.responseTimerCancel, .onSolutionAccepted true] } :=
  rfl

/-- C8, amended: for a well-framed reply with id 4 and no method whose
result is the boolean false (error absent, null or empty), or whose error
member is not empty and is rendered by `processError`, `processReponse`
cancels the response timer, fires `on_solution_rejected(false)` exactly once
if that callback is set, fires no `on_solution_accepted`, sets
`response_pending` to false, does not call `disconnect()`, and changes no
other field of the session. -/
theorem submit_reply_rejected (env : Env) (s : Session) (m : List (String × Json))
    (hid : HasId m 4) (hmeth : NoMethod m) (hframe : WellFramed m)
    (h : (IsSuccess m ∧ Json.getKey m "result" .null = .bool false) ∨ HasError env m) :
    processReponse env s (.obj m)
      = .returned
          { s with
            responsePending := false
            out := s.out ++ .responseTimerCancel ::
              (if s.hasOnSolutionRejected then [.onSolutionRejected false] else []) } := by
  rcases h with ⟨he, hr⟩ | ⟨he, hp⟩
  · rw [processReponse_of_response env s m 4 hid (by decide) hmeth hframe (Or.inl he)]
    simp [handleResponse, toInt32_of_lt,
      show (Json.getKey m "error" .null).empty = true from he, hr, reevaluate, Session.emit]
    split <;> simp
  · rw [processReponse_of_response env s m 4 hid (by decide) hmeth hframe (Or.inr hp)]
    simp [handleResponse, toInt32_of_lt, he, reevaluate_false, Session.emit]
    split <;> simp

/-- Witness of amended C8 at the reply
`{"error":"low difficulty share","id":4,"result":false}` on the connected
STRATUM sample session with a submission pending. -/
theorem submit_reply_rejected_witness :
    processReponse sampleEnv { sampleSession .STRATUM with responsePending := true }
        (.obj [("error", .str "low difficulty share"), ("id", .int 4),
               ("result", .bool false)])
      = .returned
          { sampleSession .STRATUM with
            responsePending := false
            out := [.responseTimerCancel, .onSolutionRejected false] } :=
  submit_reply_rejected sampleEnv { sampleSession .STRATUM with responsePending := true }
    [("error", .str "low difficulty share"), ("id", .int 4), ("result", .bool false)]
    rfl rfl (Or.inl rfl) (Or.inr ⟨rfl, rfl⟩)

/-- C1, the code at the failing input: under ETHPROXY a well-framed reply
with id 5, no method, no error, an array result and no `params` member is
morphed into `mining.notify`, but the job is then read from `params`, so the
call returns with the session unchanged: no timer is re-armed and
`on_work_received` does not fire. -/
theorem getblocktemplate_reply_ignored (env : Env) (s : Session) (m : List (String × Json))
    (res : List Json) (hid : HasId m 5) (hmeth : NoMethod m) (herr : NoError m)
    (hframe : WellFramed m) (hres : m.lookup "result" = some (.arr res))
    (hprm : m.lookup "params" = none) :
    processReponse env s (.obj m) = .returned s := by
  have he := noError_empty m herr
  have hres2 : Json.getKey m "result" .null = .arr res := by simp [Json.getKey, hres]
  have hprm2 : Json.getKey m "params" .null = .null := by simp [Json.getKey, hprm]
  rw [processReponse_of_response env s m 5 hid (by decide) hmeth hframe (Or.inl he)]
  by_cases hv : s.conn.version = .ETHPROXY
  · simp [handleResponse, toInt32_of_lt, hv, hres2, Json.isArray, handleNotification, hprm2]
  · simp [handleResponse, toInt32_of_lt, hv]

/-- C1 at the claim's own message `{"id":5,"result":["hdr","seed","target","h3"]}`
on the connected ETHPROXY sample session with `on_work_received` set: nothing
is logged. -/
theorem getblocktemplate_reply_ignored_witness :
    processReponse sampleEnv (sampleSession .ETHPROXY)
        (.obj [("id", .int 5),
               ("result", .arr [.str "hdr", .str "seed", .str "target", .str "h3"])])
      = .returned (sampleSession .ETHPROXY) ∧
    (sampleSession .ETHPROXY).hasOnWorkReceived = true ∧
    (sampleSession .ETHPROXY).out = [] :=
  ⟨getblocktemplate_reply_ignored sampleEnv (sampleSession .ETHPROXY)
      [("id", .int 5), ("result", .arr [.str "hdr", .str "seed", .str "target", .str "h3"])]
      [.str "hdr", .str "seed", .str "target", .str "h3"]
      rfl rfl (Or.inl rfl) (Or.inl rfl) rfl rfl,
   rfl, rfl⟩

/-- C2, counterexample: on the connected STRATUM sample session the
notification `{"method":"mining.notify","params":["j1"]}`, whose params is a
non-empty array, returns with the session unchanged: the work timer is not
re-armed and `on_work_received` does not fire. -/
theorem notify_work_counterexample :
    processReponse sampleEnv (sampleSession .STRATUM)
        (.obj [("method", .str "mining.notify"), ("params", .arr [.str "j1"])])
      = .returned (sampleSession .STRATUM) ∧
    (sampleSession .STRATUM).hasOnWorkReceived = true ∧
    (sampleSession .STRATUM).out = [] :=
  ⟨rfl, rfl, rfl⟩

/-- C2, amended: for a well-framed notification with method `mining.notify`
(id absent or convertible, error absent, empty or rendered) whose params is
an array whose elements at index 2 and 3 both convert to non-empty strings,
`processReponse` re-arms the work timer, stores as current work the Job
built from params and the current `extra_nonce` with `exSizeBits` equal to
4 times `extra_nonce_hex_size`, and fires `on_work_received` with that Job
exactly once if that callback is set. -/
theorem notify_work (env : Env) (s : Session) (m : List (String × Json)) (n : Nat)
    (xs : List Json) (p2 p3 : String) (hid : HasId m n)
    (hmeth : m.lookup "method" = some (.str "mining.notify")) (hframe : WellFramed m)
    (herr : IsSuccess m ∨ HasError env m)
    (hprm : m.lookup "params" = some (.arr xs))
    (h2 : (xs.getD 2 (.str "")).asString env.realToString = some p2) (hp2 : p2 ≠ "")
    (h3 : (xs.getD 3 (.str "")).asString env.realToString = some p3) (hp3 : p3 ≠ "") :
    processReponse env s (.obj m)
      = .returned
          { s with
            current :=
              { env.mkWork (.arr xs) s.extraNonce true with
                exSizeBits := s.extraNonceHexSize * 4 }
            out := s.out ++ .workTimerCancel :: .workTimerArm ::
              (if s.hasOnWorkReceived then
                [.onWorkReceived
                  { env.mkWork (.arr xs) s.extraNonce true with
                    exSizeBits := s.extraNonceHexSize * 4 }]
               else []) } := by
  have hprm2 : Json.getKey m "params" .null = .arr xs := by simp [Json.getKey, hprm]
  have hne : (Json.getKey m "params" .null).empty = false := by
    rw [hprm2]
    cases xs with
    | nil =>
      have h : some "" = some p2 := h2
      exact absurd (Option.some.inj h).symm hp2
    | cons x xs => rfl
  have herr2 : (Json.getKey m "error" .null).empty = true ∨
      (processError env (.obj m)).isSome := by
    rcases herr with h | h
    · exact Or.inl h
    · exact Or.inr h.2
  rw [processReponse_of_notification env s m n "mining.notify" hid hmeth (by decide) hframe
    herr2 hne]
  simp only [handleNotification, hprm2, h2, h3, if_neg hp2, if_neg hp3, if_true,
    reset_work_timeout, Session.emit]
  split <;> simp

/-- Witness of amended C2 at the notification
`{"method":"mining.notify","params":["j1","","h1","h2"]}` on the connected
ETHEREUMSTRATUM sample session after `processExtranonce("abcd")`: the Job
carries `exSizeBits = 16`. -/
theorem notify_work_witness :
    processReponse sampleEnv (processExtranonce (sampleSession .ETHEREUMSTRATUM) "abcd")
        (.obj [("method", .str "mining.notify"),
               ("params", .arr [.str "j1", .str "", .str "h1", .str "h2"])])
      = .returned
          { processExtranonce (sampleSession .ETHEREUMSTRATUM) "abcd" with
            current :=
              { valid := true, blockHeader := [], rawTransactionData := "abcd000000000000",
                exSizeBits := 16 }
            out := [.workTimerCancel, .workTimerArm,
                    .onWorkReceived
                      { valid := true, blockHeader := [],
                        rawTransactionData := "abcd000000000000", exSizeBits := 16 }] } :=
  notify_work sampleEnv (processExtranonce (sampleSession .ETHEREUMSTRATUM) "abcd")
    [("method", .str "mining.notify"),
     ("params", .arr [.str "j1", .str "", .str "h1", .str "h2"])]
    0 [.str "j1", .str "", .str "h1", .str "h2"] "h1" "h2"
    rfl rfl (Or.inl rfl) (Or.inl rfl) rfl rfl (by decide) rfl (by decide)

/-! ## Claims C11 to C20 -/

theorem asString_isSome_of_isScalar (rts : ℚ → String) (x : Json) (h : x.isScalar = true) :
    ∃ t, x.asString rts = some t := by
  cases x with
  | arr xs => simp [Json.isScalar] at h
  | obj kvs => simp [Json.isScalar] at h
  | null => exact ⟨_, rfl⟩
  | int i => exact ⟨_, rfl⟩
  | uint n => exact ⟨_, rfl⟩
  | real q => exact ⟨_, rfl⟩
  | str t => exact ⟨_, rfl⟩
  | bool b => exact ⟨_, rfl⟩

theorem string_ne_empty_of_blank (a b : String) : a ++ " " ++ b ≠ "" := by
  rw [← string_length_ne_zero]
  simp only [String.length_append]
  have : " ".length = 1 := rfl
  omega

theorem errorArrayReason_scalars (rts : ℚ → String) (xs : List Json)
    (h : ∀ x ∈ xs, x.isScalar = true) :
    ∃ r, errorArrayReason rts xs = some r ∧ (xs ≠ [] → r ≠ "") := by
  induction xs with
  | nil => exact ⟨"", rfl, fun h => absurd rfl h⟩
  | cons x xs ih =>
    obtain ⟨t, ht⟩ := asString_isSome_of_isScalar rts x (h x (List.mem_cons_self _ _))
    obtain ⟨r, hr, _⟩ := ih (fun y hy => h y (List.mem_cons_of_mem _ hy))
    refine ⟨t ++ " " ++ r, ?_, fun _ => string_ne_empty_of_blank t r⟩
    simp only [errorArrayReason, ht, hr]

theorem errorObjectReason_scalars (rts : ℚ → String) (kvs : List (String × Json))
    (h : ∀ p ∈ kvs, p.2.isScalar = true) :
    ∃ r, errorObjectReason rts kvs = some r ∧ (kvs ≠ [] → r ≠ "") := by
  induction kvs with
  | nil => exact ⟨"", rfl, fun h => absurd rfl h⟩
  | cons p kvs ih =>
    obtain ⟨k, v⟩ := p
    obtain ⟨t, ht⟩ := asString_isSome_of_isScalar rts v (h (k, v) (List.mem_cons_self _ _))
    obtain ⟨r, hr, _⟩ := ih (fun y hy => h y (List.mem_cons_of_mem _ hy))
    refine ⟨k ++ ":" ++ t ++ " " ++ r, ?_, fun _ => string_ne_empty_of_blank _ r⟩
    simp only [errorObjectReason, ht, hr]

/-- C14: while `connecting` is true `connect()` is a no-op: the session is
returned as it is, so no resolve request is logged, the endpoint queue and
the socket are not replaced, and no flag changes. -/
theorem connect_noop (s : Session) (h : s.connecting = true) : connect s = s := by
  simp [connect, h]

/-- Witness of C14 at the sample session with a connection attempt in flight. -/
theorem connect_noop_witness :
    connect { sampleSession .STRATUM with connecting := true, connected := false }
      = { sampleSession .STRATUM with connecting := true, connected := false } :=
  connect_noop { sampleSession .STRATUM with connecting := true, connected := false } rfl

/-- C12, the code at the failing input: on a session that is not
disconnecting and holds an open plain socket, one `disconnect()` finishes
with `disconnecting` false, and a second one sets `disconnecting` to true
and leaves it so (nothing is left to finalize); the other flags and the
number of `on_disconnected` firings are the same after both. -/
theorem disconnect_twice (s : Session) (hd : s.disconnecting = false)
    (hs : s.socket = some true) (hp : s.conn.secLevel = .NONE) :
    (disconnect s).disconnecting = false ∧
    (disconnect (disconnect s)).disconnecting = true ∧
    (disconnect (disconnect s)).connecting = (disconnect s).connecting ∧
    (disconnect (disconnect s)).connected = (disconnect s).connected ∧
    (disconnect (disconnect s)).subscribed = (disconnect s).subscribed ∧
    (disconnect (disconnect s)).authorized = (disconnect s).authorized ∧
    (disconnect (disconnect s)).responsePending = (disconnect s).responsePending ∧
    firedDisconnected (disconnect (disconnect s)).out
      = firedDisconnected (disconnect s).out := by
  have h1 : disconnect s
      = disconnect_finalize
          { s with
            disconnecting := true
            responsePending := false
            socket := some false
            out := s.out ++ [.disconnectCall, .socketCancel, .postCancelTimers,
                             .socketShutdownClose] } := by
    simp [disconnect, Session.emit, hd, hs, hp]
  rw [h1]
  by_cases hcb : s.hasOnDisconnected = true <;>
    simp [disconnect, disconnect_finalize, Session.emit, hp, hcb, firedDisconnected,
      Effect.isOnDisconnected, List.countP_append, List.countP_cons]

/-- C12 at the connected sample session (open plain socket): after one
`disconnect()` the flag `disconnecting` is false, after two it is true. -/
theorem disconnect_twice_witness :
    (disconnect (sampleSession .STRATUM)).disconnecting = false ∧
    (disconnect (disconnect (sampleSession .STRATUM))).disconnecting = true :=
  have h := disconnect_twice (sampleSession .STRATUM) rfl rfl rfl
  ⟨h.1, h.2.1⟩

/-- C18, counterexample: for an `error` member that is the empty string, the
empty array or the empty object, `processError` returns the empty reason. -/
theorem processError_counterexample :
    processError sampleEnv (.obj [("error", .str "")]) = some "" ∧
    processError sampleEnv (.obj [("error", .arr [])]) = some "" ∧
    processError sampleEnv (.obj [("error", .obj [])]) = some "" :=
  ⟨rfl, rfl, rfl⟩

/-- C18, amended: for a response object whose `error` member is a non-empty
string, a non-empty array of scalars or a non-empty object with scalar
members, `processError` returns a non-empty reason string. -/
theorem processError_reason (env : Env) (m : List (String × Json)) (e : Json)
    (he : m.lookup "error" = some e) (hne : NonEmptyError e) :
    ∃ r, processError env (.obj m) = some r ∧ r ≠ "" := by
  have hk : ∀ d, Json.getKey m "error" d = e := fun d => by simp [Json.getKey, he]
  have hmem : Json.isMember m "error" = true := by simp [Json.isMember, he]
  cases e with
  | null => exact absurd hne id
  | int i => exact absurd hne id
  | uint n => exact absurd hne id
  | real q => exact absurd hne id
  | bool b => exact absurd hne id
  | str t =>
    refine ⟨t, ?_, hne⟩
    simp [processError, Json.members, hmem, hk, Json.isNull, Json.isConvertibleToString,
      Json.asString]
  | arr xs =>
    obtain ⟨r, hr, hr2⟩ := errorArrayReason_scalars env.realToString xs hne.2
    refine ⟨r, ?_, hr2 hne.1⟩
    simp [processError, Json.members, hmem, hk, Json.isNull, Json.isConvertibleToString,
      Json.isConvertibleToArray, hr]
  | obj kvs =>
    obtain ⟨r, hr, hr2⟩ := errorObjectReason_scalars env.realToString kvs hne.2
    refine ⟨r, ?_, hr2 hne.1⟩
    simp [processError, Json.members, hmem, hk, Json.isNull, Json.isConvertibleToString,
      Json.isConvertibleToArray, Json.isConvertibleToObject, hr]

/-- Witness of amended C18 at the error `[20, "Other/Unknown", null]`. -/
theorem processError_reason_witness :
    ∃ r, processError sampleEnv
        (.obj [("error", .arr [.int 20, .str "Other/Unknown", .null]), ("id", .int 4)])
      = some r ∧ r ≠ "" :=
  processError_reason sampleEnv
    [("error", .arr [.int 20, .str "Other/Unknown", .null]), ("id", .int 4)]
    (.arr [.int 20, .str "Other/Unknown", .null]) rfl
    ⟨by simp, by simp [Json.isScalar]⟩

/-- C20, counterexample: a message whose `error` member is the empty array,
or the empty object, is classified as successful although the member is
present and not null; under STRATUM the reply `{"error":{},"id":1}` is then
handled as a successful subscription. -/
theorem isSuccess_counterexample :
    isSuccessOf [("error", .arr []), ("id", .int 1)] = true ∧
    isSuccessOf [("error", .obj []), ("id", .int 1)] = true ∧
    processReponse sampleEnv (sampleSession .STRATUM)
        (.obj [("error", .obj []), ("id", .int 1)])
      = .returned
          { sampleSession .STRATUM with
            subscribed := true
            out := [.send (.obj [("id", .uint 3), ("jsonrpc", .str "2.0"),
                                 ("method", .str "mining.authorize"),
                                 ("params", .arr [.str "user.worker", .str "pass"])])] } :=
  ⟨rfl, rfl, rfl⟩

/-- C20, amended: `processReponse` classifies a message as successful exactly
when it has no `error` member or that member is null, an empty array or an
empty object; every other value of the member (a string, empty or not, a
number, a boolean, a non-empty array or object) makes it a failure. -/
theorem isSuccess_classification (m : List (String × Json)) :
    isSuccessOf m = true ↔
      (m.lookup "error" = none ∨ m.lookup "error" = some .null ∨
       m.lookup "error" = some (.arr []) ∨ m.lookup "error" = some (.obj [])) := by
  unfold isSuccessOf Json.getKey
  cases h : m.lookup "error" with
  | none => simp [Json.empty]
  | some e =>
    cases e with
    | null => simp [Json.empty]
    | int i => simp [Json.empty]
    | uint n => simp [Json.empty]
    | real q => simp [Json.empty]
    | str t => simp [Json.empty]
    | bool b => simp [Json.empty]
    | arr xs => cases xs <;> simp [Json.empty]
    | obj kvs => cases kvs <;> simp [Json.empty]


theorem processReponse_cases (env : Env) (s : Session) (msg : Json) :
    processReponse env s msg = .threw s ∨
    processReponse env s msg = .returned (disconnect s) ∨
    (∃ m idU rpcVer, msg.members = some m ∧
      (Json.getKey m "id" (.uint 0)).asUInt = some idU ∧
      (Json.getKey m "method" (.str "")).asString env.realToString = some "" ∧
      processReponse env s msg =
        match handleResponse env s m (toInt32 idU) (isSuccessOf m) "" with
        | .done o => o
        | .goOn t method isNotification =>
          if isNotification then handleNotification env t m rpcVer (toInt32 idU) method
          else .returned t) ∨
    (∃ m idU rpcVer method, msg.members = some m ∧
      processReponse env s msg = handleNotification env s m rpcVer (toInt32 idU) method) := by
  unfold processReponse
  cases hm : msg.members with
  | none => exact Or.inl rfl
  | some m =>
    simp only
    cases hid : (Json.getKey m "id" (.uint 0)).asUInt with
    | none => exact Or.inl rfl
    | some idU =>
      simp only
      cases he : (if isSuccessOf m = true then some "" else processError env msg) with
      | none => exact Or.inl rfl
      | some r =>
        simp only
        cases hme : (Json.getKey m "method" (.str "")).asString env.realToString with
        | none => exact Or.inl rfl
        | some method0 =>
          simp only
          generalize (if Json.isMember m "jsonrpc" = true then (2 : Nat) else 1) = rpcVer
          by_cases hnot : (idU == 0 || method0 != "") = true
          · split
            · exact Or.inr (Or.inl rfl)
            · refine Or.inr (Or.inr (Or.inr ⟨m, idU, rpcVer,
                (if ((idU == 0 || method0 != "") && method0 == "" &&
                    s.conn.version == Version.ETHPROXY &&
                    (Json.getKey m "result" Json.null).isArray) = true
                  then "mining.notify" else method0), rfl, ?_⟩))
              simp [hnot]
          · have hm0 : method0 = "" := by
              simp at hnot
              exact hnot.2
            subst hm0
            split
            · exact Or.inr (Or.inl rfl)
            · have h0 : idU ≠ 0 := by
                intro h
                simp [h] at hnot
              refine Or.inr (Or.inr (Or.inl ⟨m, idU, rpcVer, rfl, hid, hme, ?_⟩))
              simp [h0]

theorem disconnect_frame (s : Session) :
    (disconnect s).nextWorkDifficulty = s.nextWorkDifficulty ∧
    (((disconnect s).subscribed = s.subscribed ∧ (disconnect s).authorized = s.authorized) ∨
     ((disconnect s).subscribed = false ∧ (disconnect s).authorized = false)) ∧
    ∃ rest, (disconnect s).out = s.out ++ .disconnectCall :: rest := by
  unfold disconnect disconnect_finalize
  simp only [Session.emit]
  split_ifs <;> simp

theorem handleNotification_frame (env : Env) (s : Session) (m : List (String × Json))
    (rpcVer : Nat) (id : Int) (method : String) :
    (handleNotification env s m rpcVer id method).session.subscribed = s.subscribed ∧
    (handleNotification env s m rpcVer id method).session.authorized = s.authorized ∧
    (handleNotification env s m rpcVer id method).session.responsePending
      = s.responsePending ∧
    (difficultyFloor ≤ s.nextWorkDifficulty →
      difficultyFloor ≤
        (handleNotification env s m rpcVer id method).session.nextWorkDifficulty) := by
  unfold handleNotification
  simp only [reset_work_timeout, sendSocketData, processExtranonce, Session.emit]
  repeat' split
  all_goals simp_all [Outcome.session, difficultyFloor]
  rename_i h
  exact fun _ => le_of_lt h

theorem asUInt_le (x : Json) (n : Nat) (h : x.asUInt = some n) : n ≤ 4294967295 := by
  cases x with
  | null => simp [Json.asUInt] at h; omega
  | int i =>
    simp only [Json.asUInt, Json.maxUInt] at h
    split_ifs at h with hc
    simp at h
    omega
  | uint k =>
    simp only [Json.asUInt, Json.maxUInt] at h
    split_ifs at h with hc
    simp at h
    omega
  | real q =>
    simp only [Json.asUInt, Json.maxUInt] at h
    split_ifs at h with hc
    simp at h
    have h1 : Rat.floor q ≤ 4294967295 := by
      by_contra hcon
      have h2 : (4294967296 : ℤ) ≤ Rat.floor q := by omega
      have h3 := Rat.le_floor.mp h2
      have h4 := hc.2
      norm_num at h3 h4
      linarith
    omega
  | bool b => cases b <;> simp [Json.asUInt] at h <;> omega
  | str t => simp [Json.asUInt] at h
  | arr xs => simp [Json.asUInt] at h
  | obj kvs => simp [Json.asUInt] at h

theorem toInt32_eq_small (n : Nat) (k : Nat) (hn : n ≤ 4294967295) (hk : k < 2147483648)
    (h : toInt32 n = (k : Int)) : n = k := by
  unfold toInt32 at h
  have h1 : n % 4294967296 = n := Nat.mod_eq_of_lt (by omega)
  rw [h1] at h
  split_ifs at h <;> omega

theorem callsDisconnect_of_disconnect (s x : Session) (hx : x.out = s.out) :
    CallsDisconnect s (disconnect x) := by
  obtain ⟨rest, h⟩ := (disconnect_frame x).2.2
  exact ⟨[], rest, by rw [h, hx]; simp⟩

/-- What `disconnect()` on a session `x` that differs from `s` in `subscribed`
and `authorized` at most leaves of the properties followed here. -/
theorem disconnect_after (s x : Session) (hout : x.out = s.out)
    (hd : x.nextWorkDifficulty = s.nextWorkDifficulty) :
    (difficultyFloor ≤ s.nextWorkDifficulty →
      difficultyFloor ≤ (disconnect x).nextWorkDifficulty) ∧
    ((x.authorized = true → x.subscribed = true) →
      (disconnect x).authorized = true → (disconnect x).subscribed = true) ∧
    CallsDisconnect s (disconnect x) := by
  obtain ⟨h1, h2, _⟩ := disconnect_frame x
  refine ⟨fun h => by rw [h1, hd]; exact h, ?_, callsDisconnect_of_disconnect s x hout⟩
  intro hI ha
  rcases h2 with ⟨hs, hau⟩ | ⟨hs, hau⟩
  · rw [hs]; exact hI (by rw [← hau]; exact ha)
  · rw [hau] at ha; exact absurd ha (by simp)

theorem responseCase1_frame (env : Env) (s : Session) (isSuccess : Bool) (jResult : Json)
    (method : String) :
    (∀ t meth, responseCase1 env s isSuccess jResult method ≠ .goOn t meth true) ∧
    (difficultyFloor ≤ s.nextWorkDifficulty →
      difficultyFloor ≤
        (responseCase1 env s isSuccess jResult method).session.nextWorkDifficulty) ∧
    ((s.authorized = true → isSuccess = true) →
      (responseCase1 env s isSuccess jResult method).session.authorized = true →
      (responseCase1 env s isSuccess jResult method).session.subscribed = true) ∧
    (s.responsePending = true →
      (responseCase1 env s isSuccess jResult method).session.responsePending = false →
      CallsDisconnect s (responseCase1 env s isSuccess jResult method).session) := by
  cases isSuccess with
  | false =>
    have hd := disconnect_after s { s with subscribed := false } rfl rfl
    unfold responseCase1
    cases hv : s.conn.version <;>
      simp only [Bool.not_false, if_true, Dispatch.session, Outcome.session] <;>
      refine ⟨by simp, hd.1, ?_, fun _ _ => hd.2.2⟩ <;>
      intro hs <;> exact hd.2.1 (fun ha => by simpa using hs ha)
  | true =>
    have hfloor : difficultyFloor ≤ (1 : ℚ) := by norm_num [difficultyFloor]
    unfold responseCase1
    cases hv : s.conn.version
    · simp only [sendSocketData, Session.emit]
      split_ifs <;> simp_all [Dispatch.session, Outcome.session]
    · simp only [sendSocketData, Session.emit]
      split_ifs <;> simp_all [Dispatch.session, Outcome.session]
    · rcases jResult with _ | _ | _ | _ | _ | _ | (_ | ⟨x, xs⟩) | _
      case arr.cons =>
        cases h : Json.asString env.realToString (List.getD (x :: xs) 1 (Json.str "")) with
        | none =>
          simp only [h]
          simp [Dispatch.session, Outcome.session, hfloor]
          intro h1 h2
          rw [h1] at h2
          exact absurd h2 (by simp)
        | some enonce =>
          simp only [h, sendSocketData, processExtranonce, Session.emit]
          split_ifs <;> simp_all [Dispatch.session, Outcome.session]
      all_goals
        simp only [sendSocketData, Session.emit]
        split_ifs <;> simp_all [Dispatch.session, Outcome.session]

theorem frame_of_same (s t : Session) (id : Int)
    (h1 : t.nextWorkDifficulty = s.nextWorkDifficulty) (h2 : t.subscribed = s.subscribed)
    (h3 : t.authorized = s.authorized) (h4 : t.responsePending = s.responsePending) :
    (difficultyFloor ≤ s.nextWorkDifficulty → difficultyFloor ≤ t.nextWorkDifficulty) ∧
    ((s.authorized = true → s.subscribed = true) →
      t.authorized = true → t.subscribed = true) ∧
    (s.responsePending = true → t.responsePending = false →
      id = 4 ∨ CallsDisconnect s t) := by
  refine ⟨fun h => by rw [h1]; exact h, fun hI ha => by rw [h2]; exact hI (by rw [← h3]; exact ha),
    fun hp hq => ?_⟩
  rw [h4, hp] at hq
  exact absurd hq (by simp)

theorem handleResponse_frame (env : Env) (s : Session) (m : List (String × Json)) (k : Int)
    (isSuccess : Bool) (method : String) :
    (∀ t meth, handleResponse env s m k isSuccess method = .goOn t meth true → t = s) ∧
    (difficultyFloor ≤ s.nextWorkDifficulty →
      difficultyFloor ≤
        (handleResponse env s m k isSuccess method).session.nextWorkDifficulty) ∧
    ((s.authorized = true → s.subscribed = true) →
      (k = 3 → s.subscribed = true) →
      (k = 1 → s.authorized = true → isSuccess = true) →
      (handleResponse env s m k isSuccess method).session.authorized = true →
      (handleResponse env s m k isSuccess method).session.subscribed = true) ∧
    (s.responsePending = true →
      (handleResponse env s m k isSuccess method).session.responsePending = false →
      k = 4 ∨ CallsDisconnect s (handleResponse env s m k isSuccess method).session) := by
  have same := frame_of_same s s k rfl rfl rfl rfl
  unfold handleResponse
  by_cases h1 : k = 1
  · obtain ⟨a, b, c, d⟩ := responseCase1_frame env s isSuccess (Json.getKey m "result" .null)
      method
    rw [if_pos h1]
    exact ⟨fun t meth h => absurd h (a t meth), b, fun _ _ h => c (h h1),
      fun hp hq => Or.inr (d hp hq)⟩
  rw [if_neg h1]
  by_cases h2 : k = 2
  · rw [if_pos h2]
    exact ⟨fun t meth h => (by cases h), same.1, fun hI _ _ => same.2.1 hI, same.2.2⟩
  rw [if_neg h2]
  by_cases h3 : k = 3
  · rw [if_pos h3]
    cases hr : reevaluate isSuccess (Json.getKey m "result" .null) with
    | true =>
      simp only [Bool.not_true, Dispatch.session]
      refine ⟨fun t meth h => (by cases h), fun h => h, fun _ hs _ _ => hs h3, fun hp hq => ?_⟩
      rw [hp] at hq
      exact absurd hq (by simp)
    | false =>
      have hd := disconnect_after s { s with authorized := false } rfl rfl
      simp only [Bool.not_false, if_true, Dispatch.session, Outcome.session]
      exact ⟨fun t meth h => (by cases h), hd.1, fun _ _ _ => hd.2.1 (by simp),
        fun _ _ => Or.inr hd.2.2⟩
  rw [if_neg h3]
  by_cases h4 : k = 4
  · rw [if_pos h4]
    simp only [Session.emit]
    refine ⟨?_, ?_, ?_, fun _ _ => Or.inl h4⟩
    · intro t meth h
      split_ifs at h <;> cases h
    · split_ifs <;> exact fun h => h
    · intro hI _ _
      split_ifs <;> exact hI
  rw [if_neg h4]
  by_cases h5 : k = 5
  · rw [if_pos h5]
    split_ifs
    · exact ⟨fun t meth h => (by cases h; rfl), same.1, fun hI _ _ => same.2.1 hI, same.2.2⟩
    · exact ⟨fun t meth h => (by cases h), same.1, fun hI _ _ => same.2.1 hI, same.2.2⟩
  rw [if_neg h5]
  by_cases h9 : k = 9
  · rw [if_pos h9]
    exact ⟨fun t meth h => (by cases h), same.1, fun hI _ _ => same.2.1 hI, same.2.2⟩
  rw [if_neg h9]
  by_cases h999 : k = 999
  · have hd := disconnect_after s s rfl rfl
    rw [if_pos h999]
    split_ifs
    · exact ⟨fun t meth h => (by cases h), hd.1, fun hI _ _ => hd.2.1 hI,
        fun _ _ => Or.inr hd.2.2⟩
    · exact ⟨fun t meth h => (by cases h), hd.1, fun hI _ _ => hd.2.1 hI,
        fun _ _ => Or.inr hd.2.2⟩
    · exact ⟨fun t meth h => (by cases h), same.1, fun hI _ _ => same.2.1 hI, same.2.2⟩
    · exact ⟨fun t meth h => (by cases h), same.1, fun hI _ _ => same.2.1 hI, same.2.2⟩
  · rw [if_neg h999]
    exact ⟨fun t meth h => (by cases h), same.1, fun hI _ _ => same.2.1 hI, same.2.2⟩

theorem processReponse_frame (env : Env) (s : Session) (msg : Json) :
    (difficultyFloor ≤ s.nextWorkDifficulty →
      difficultyFloor ≤ (processReponse env s msg).session.nextWorkDifficulty) ∧
    ((s.authorized = true → s.subscribed = true) → InOrder s msg →
      (processReponse env s msg).session.authorized = true →
      (processReponse env s msg).session.subscribed = true) ∧
    (s.responsePending = true →
      (processReponse env s msg).session.responsePending = false →
      IsSubmitReply env (.message msg) ∨
        CallsDisconnect s (processReponse env s msg).session) := by
  rcases processReponse_cases env s msg with h | h | ⟨m, idU, rpcVer, hm, hid, hme, h⟩ |
    ⟨m, idU, rpcVer, method, hm, h⟩
  · rw [h]
    obtain ⟨a, b, c⟩ := frame_of_same s s 0 rfl rfl rfl rfl
    exact ⟨a, fun hI _ => b hI, fun hp hq => absurd (hp.symm.trans hq) (by simp)⟩
  · rw [h]
    obtain ⟨a, b, c⟩ := disconnect_after s s rfl rfl
    exact ⟨a, fun hI _ => b hI, fun _ _ => Or.inr c⟩
  · have hle := asUInt_le _ _ hid
    obtain ⟨f1, f2, f3, f4⟩ := handleResponse_frame env s m (toInt32 idU) (isSuccessOf m) ""
    have hI3 : InOrder s msg → toInt32 idU = 3 → s.subscribed = true := by
      intro hio h3
      have : idU = 3 := toInt32_eq_small idU 3 hle (by decide) h3
      exact hio.1 (by simp [msgId, hm, hid, this])
    have hI1 : InOrder s msg → toInt32 idU = 1 → s.authorized = true →
        isSuccessOf m = true := by
      intro hio h1 ha
      have : idU = 1 := toInt32_eq_small idU 1 hle (by decide) h1
      have := hio.2 (by simp [msgId, hm, hid, this]) ha
      simpa [msgSuccess, hm] using this
    have hsub : toInt32 idU = 4 → IsSubmitReply env (.message msg) := by
      intro h4
      have : idU = 4 := toInt32_eq_small idU 4 hle (by decide) h4
      exact ⟨m, hm, by rw [HasId, hid, this], hme⟩
    rw [h]
    cases hd : handleResponse env s m (toInt32 idU) (isSuccessOf m) "" with
    | done o =>
      rw [hd] at f2 f3 f4
      simp only [Dispatch.session] at f2 f3 f4
      exact ⟨f2, fun hI hio => f3 hI (hI3 hio) (hI1 hio),
        fun hp hq => (f4 hp hq).elim (fun h4 => Or.inl (hsub h4)) Or.inr⟩
    | goOn t meth notif =>
      rw [hd] at f2 f3 f4
      simp only [Dispatch.session] at f2 f3 f4
      cases notif with
      | false =>
        simp only [Bool.false_eq_true, if_false, Outcome.session]
        exact ⟨f2, fun hI hio => f3 hI (hI3 hio) (hI1 hio),
          fun hp hq => (f4 hp hq).elim (fun h4 => Or.inl (hsub h4)) Or.inr⟩
      | true =>
        have hts : t = s := f1 t meth hd
        subst hts
        simp only [if_true]
        obtain ⟨n1, n2, n3, n4⟩ :=
          handleNotification_frame env t m rpcVer (toInt32 idU) meth
        refine ⟨n4, fun hI _ ha => ?_, fun hp hq => ?_⟩
        · rw [n1]; exact hI (by rw [← n2]; exact ha)
        · rw [n3, hp] at hq
          exact absurd hq (by simp)
  · rw [h]
    obtain ⟨n1, n2, n3, n4⟩ := handleNotification_frame env s m rpcVer (toInt32 idU) method
    refine ⟨n4, fun hI _ ha => ?_, fun hp hq => ?_⟩
    · rw [n1]; exact hI (by rw [← n2]; exact ha)
    · rw [n3, hp] at hq
      exact absurd hq (by simp)

/-- C11: with the difficulty an exact rational, a session whose
`next_work_difficulty` is at least `0.0001` still has it at least `0.0001`
after `processReponse` on any message (whether the call returns or throws);
a well-framed `mining.set_difficulty` notification whose params start with a
number `d` sets it to `max d 0.0001`, and params `[0.00001]` give exactly
`0.0001`. -/
theorem difficulty_floor (env : Env) (s : Session)
    (h : difficultyFloor ≤ s.nextWorkDifficulty) :
    (∀ msg, difficultyFloor ≤ (processReponse env s msg).session.nextWorkDifficulty) ∧
    (∀ (m : List (String × Json)) (n : Nat) (x : Json) (rest : List Json) (d : ℚ),
      HasId m n → m.lookup "method" = some (.str "mining.set_difficulty") →
      WellFramed m → (IsSuccess m ∨ HasError env m) →
      m.lookup "params" = some (.arr (x :: rest)) → x.asDouble = some d →
      processReponse env s (.obj m)
        = .returned { s with nextWorkDifficulty := max d difficultyFloor }) ∧
    processReponse env s
        (.obj [("method", .str "mining.set_difficulty"),
               ("params", .arr [.real (1 / 100000)])])
      = .returned { s with nextWorkDifficulty := 1 / 10000 } := by
  have key : ∀ (m : List (String × Json)) (n : Nat) (x : Json) (rest : List Json) (d : ℚ),
      HasId m n → m.lookup "method" = some (.str "mining.set_difficulty") →
      WellFramed m → (IsSuccess m ∨ HasError env m) →
      m.lookup "params" = some (.arr (x :: rest)) → x.asDouble = some d →
      processReponse env s (.obj m)
        = .returned { s with nextWorkDifficulty := max d difficultyFloor } := by
    intro m n x rest d hid hmeth hframe herr hprm hd
    have hprm2 : Json.getKey m "params" .null = .arr (x :: rest) := by
      simp [Json.getKey, hprm]
    have hne : (Json.getKey m "params" .null).empty = false := by rw [hprm2]; rfl
    have herr2 : (Json.getKey m "error" .null).empty = true ∨
        (processError env (.obj m)).isSome := herr.elim Or.inl (fun h => Or.inr h.2)
    have hx : (List.getD (x :: rest) 0 (Json.int 1)).asDouble = some d := hd
    rw [processReponse_of_notification env s m n "mining.set_difficulty" hid hmeth
      (by decide) hframe herr2 hne]
    unfold handleNotification
    rw [if_neg (by decide : ¬ "mining.set_difficulty" = "mining.notify"), if_pos rfl]
    simp only [hprm2, hx, difficultyFloor]
    by_cases hle : d ≤ 1 / 10000
    · rw [max_eq_right hle]
      simp only [if_true, hle, if_pos]
    · have hlt : (1 : ℚ) / 10000 ≤ d := le_of_lt (not_le.mp hle)
      rw [max_eq_left hlt]
      simp only [if_false, hle, if_neg, not_false_eq_true]
  refine ⟨fun msg => (processReponse_frame env s msg).1 h, key, ?_⟩
  have := key [("method", .str "mining.set_difficulty"), ("params", .arr [.real (1 / 100000)])]
    0 (.real (1 / 100000)) [] (1 / 100000) rfl rfl (Or.inl rfl) (Or.inl rfl) rfl rfl
  rw [this]
  norm_num [difficultyFloor]

/-- Witness of C11 at the sample session (difficulty 1) and the notification
`{"method":"mining.set_difficulty","params":[0.00001]}`. -/
theorem difficulty_floor_witness :
    processReponse sampleEnv (sampleSession .STRATUM)
        (.obj [("method", .str "mining.set_difficulty"),
               ("params", .arr [.real (1 / 100000)])])
      = .returned { sampleSession .STRATUM with nextWorkDifficulty := 1 / 10000 } :=
  (difficulty_floor sampleEnv (sampleSession .STRATUM)
    (by norm_num [difficultyFloor, sampleSession])).2.2


theorem handleAll_invariant (env : Env) (msgs : List Json) :
    ∀ s : Session, (s.authorized = true → s.subscribed = true) → InOrderRun env s msgs →
      (handleAll env s msgs).authorized = true → (handleAll env s msgs).subscribed = true := by
  induction msgs with
  | nil => exact fun s hI _ => hI
  | cons msg rest ih =>
    intro s hI hrun
    exact ih _ ((processReponse_frame env s msg).2.1 hI hrun.1) hrun.2

/-- C15, counterexample: after a fresh `connect()` a reply with id 3 handled
before any reply with id 1 leaves `authorized` true and `subscribed` false;
so does a failed reply with id 1 handled after the handshake, while the
disconnect it triggers has nothing to finalize. -/
theorem authorized_implies_subscribed_counterexample :
    (handleAll sampleEnv (connect (sampleSession .STRATUM))
        [.obj [("id", .int 3), ("result", .bool true)]]).authorized = true ∧
    (handleAll sampleEnv (connect (sampleSession .STRATUM))
        [.obj [("id", .int 3), ("result", .bool true)]]).subscribed = false ∧
    (handleAll sampleEnv (connect (sampleSession .STRATUM))
        [.obj [("id", .int 1), ("result", .bool true)],
         .obj [("id", .int 3), ("result", .bool true)],
         .obj [("error", .str "gone"), ("id", .int 1)]]).authorized = true ∧
    (handleAll sampleEnv (connect (sampleSession .STRATUM))
        [.obj [("id", .int 1), ("result", .bool true)],
         .obj [("id", .int 3), ("result", .bool true)],
         .obj [("error", .str "gone"), ("id", .int 1)]]).subscribed = false :=
  ⟨rfl, rfl, rfl, rfl⟩

/-- C15, amended: in every session state reached from a fresh `connect()`
through inbound messages handled by `processReponse` (any dialect), none of
which has id 3 while `subscribed` is false or has id 1 and an error while
`authorized` is true, `authorized == true` implies `subscribed == true`. -/
theorem authorized_implies_subscribed (env : Env) (s0 : Session) (msgs : List Json)
    (hfresh : s0.connecting = false) (hord : InOrderRun env (connect s0) msgs) :
    (handleAll env (connect s0) msgs).authorized = true →
    (handleAll env (connect s0) msgs).subscribed = true := by
  apply handleAll_invariant env msgs (connect s0) _ hord
  simp [connect, hfresh, Session.emit]

/-- Witness of amended C15: the STRATUM handshake, a successful reply with
id 1 and then one with id 3, after a fresh `connect()` of the sample
session, ends authorized and subscribed. -/
theorem authorized_implies_subscribed_witness :
    (handleAll sampleEnv (connect (sampleSession .STRATUM))
        [.obj [("id", .int 1), ("result", .bool true)],
         .obj [("id", .int 3), ("result", .bool true)]]).authorized = true ∧
    (handleAll sampleEnv (connect (sampleSession .STRATUM))
        [.obj [("id", .int 1), ("result", .bool true)],
         .obj [("id", .int 3), ("result", .bool true)]]).subscribed = true :=
  ⟨rfl,
   authorized_implies_subscribed sampleEnv (sampleSession .STRATUM)
    [.obj [("id", .int 1), ("result", .bool true)],
     .obj [("id", .int 3), ("result", .bool true)]]
    rfl
    ⟨⟨fun h => (by cases h), fun _ h => (by cases h)⟩,
     ⟨fun _ => rfl, fun h => (by cases h)⟩, trivial⟩
    rfl⟩

theorem callsDisconnect_trans (s x t : Session) (h1 : CallsDisconnect s x)
    (h2 : ∃ more, t.out = x.out ++ more) : CallsDisconnect s t := by
  obtain ⟨pre, rest, h⟩ := h1
  obtain ⟨more, hm⟩ := h2
  exact ⟨pre, rest ++ more, by rw [hm, h]; simp⟩

theorem disconnect_out_extends (s : Session) : ∃ more, (disconnect s).out = s.out ++ more := by
  obtain ⟨rest, h⟩ := (disconnect_frame s).2.2
  exact ⟨_, h⟩

/-- C16, counterexample: with a submission pending on the connected sample
session, the expiry of the work timer, and a call of `disconnect()`, each
clear `response_pending`; neither is the handling of an id=4 reply or the
expiry of the response timer. -/
theorem response_pending_counterexample :
    ({ sampleSession .STRATUM with responsePending := true } : Session).responsePending
      = true ∧
    (step sampleEnv { sampleSession .STRATUM with responsePending := true }
      (.workTimer false)).responsePending = false ∧
    (step sampleEnv { sampleSession .STRATUM with responsePending := true }
      .apiDisconnect).responsePending = false :=
  ⟨rfl, rfl, rfl⟩

/-- C16, amended: `submitSolution` re-arms the response timer before it sends
the id=4 request (and sends nothing when not connected), and in every step
of the session (an inbound message, a handler or timer expiry, an API call)
`response_pending` changes from true to false only when the step is the
handling of an id=4 reply or the step enters `disconnect()`, as the expiry
of the response timer does. -/
theorem response_pending_cleared (env : Env) (s : Session) (sol : Solution) (e : Event) :
    (isConnected s = true →
      (submitSolution s sol).out
        = s.out ++ [.responseTimerCancel, .responseTimerArm,
                    .send (.obj (submitRequest s sol))]) ∧
    (isConnected s = false →
      (submitSolution s sol).out = s.out ++ [.responseTimerCancel, .responseTimerArm]) ∧
    (s.responsePending = true → (step env s e).responsePending = false →
      IsSubmitReply env e ∨ CallsDisconnect s (step env s e)) := by
  refine ⟨?_, ?_, ?_⟩
  · intro hc
    have hc2 : isConnected ((s.emit .responseTimerCancel).emit .responseTimerArm) = true := hc
    simp only [submitSolution, sendSocketData, hc2]
    simp [Session.emit, submitRequest]
  · intro hc
    have hc2 : isConnected ((s.emit .responseTimerCancel).emit .responseTimerArm) = false :=
      hc
    simp only [submitSolution, sendSocketData, hc2]
    simp [Session.emit]
  · intro hp
    have same : ∀ t : Session, t.responsePending = s.responsePending →
        t.responsePending = false → IsSubmitReply env e ∨ CallsDisconnect s t := by
      intro t h1 h2
      rw [h1, hp] at h2
      exact absurd h2 (by simp)
    have hdis : CallsDisconnect s (disconnect s) := callsDisconnect_of_disconnect s s rfl
    cases e with
    | message msg => exact (processReponse_frame env s msg).2.2 hp
    | resolved ec results =>
      apply same
      simp only [step, resolve_handler, Session.emit]
      split_ifs <;> rfl
    | startConnect =>
      apply same
      simp only [step, start_connect, Session.emit]
      split <;> (try split_ifs) <;> rfl
    | connectDone ec hec =>
      apply same
      simp only [step, connect_handler, recvSocketData, sendSocketData, reset_work_timeout,
        Session.emit]
      split_ifs <;> rfl
    | connectTimer deadlinePassed =>
      apply same
      simp only [step, check_connect_timeout, Session.emit]
      split_ifs <;> rfl
    | workTimer ec =>
      simp only [step, work_timeout_handler]
      split_ifs
      · exact fun _ => Or.inr hdis
      · exact same s rfl
      · exact same s rfl
    | responseTimer ec =>
      simp only [step, response_timeout_handler]
      split_ifs
      · exact fun _ => Or.inr hdis
      · exact same s rfl
      · exact same s rfl
    | received ec n message parsed =>
      simp only [step, onRecvSocketDataCompleted, recvSocketData, Session.emit]
      split_ifs
      · apply same
        split <;> rfl
      · exact same _ rfl
      · exact same s rfl
      · exact fun _ => Or.inr hdis
      · exact same s rfl
    | sent ec sslShutdown =>
      simp only [step, onSendSocketDataCompleted]
      split_ifs
      · exact fun _ => Or.inr (callsDisconnect_trans s _ _ hdis (disconnect_out_extends _))
      · exact fun _ => Or.inr hdis
      · exact fun _ => Or.inr hdis
      · exact same s rfl
      · exact same s rfl
    | sslShutdownDone => exact same _ rfl
    | finalize =>
      apply same
      simp only [step, disconnect_finalize, Session.emit]
      split_ifs <;> rfl
    | apiConnect =>
      apply same
      simp only [step, connect, Session.emit]
      split_ifs <;> rfl
    | apiDisconnect => exact fun _ => Or.inr hdis
    | apiSubmitSolution solution =>
      intro h
      simp [step, submitSolution] at h
    | apiSubmitHashrate rate => exact same s rfl

/-- Witness of amended C16 on the connected sample session with a submission
pending: the submit log has the timer before the frame, and the reply
`{"id":4,"result":true}` is a step that may clear the flag. -/
theorem response_pending_cleared_witness :
    (submitSolution { sampleSession .STRATUM with responsePending := true }
        sampleSolution).out
      = [.responseTimerCancel, .responseTimerArm,
         .send (.obj (submitRequest { sampleSession .STRATUM with responsePending := true }
           sampleSolution))] ∧
    (IsSubmitReply sampleEnv (.message (.obj [("id", .int 4), ("result", .bool true)])) ∨
     CallsDisconnect { sampleSession .STRATUM with responsePending := true }
       (step sampleEnv { sampleSession .STRATUM with responsePending := true }
         (.message (.obj [("id", .int 4), ("result", .bool true)])))) :=
  have h := response_pending_cleared sampleEnv
    { sampleSession .STRATUM with responsePending := true } sampleSolution
    (.message (.obj [("id", .int 4), ("result", .bool true)]))
  ⟨h.1 rfl, h.2.2 rfl rfl⟩

/-- What the sanity checks of `processReponse` do once the essential values
are read: a message whose `jsonrpc` member is not the string `2.0`, or a
notification whose `params` and `result` are both empty, only gets
`disconnect()`. -/
theorem invalid_frame_disconnects (env : Env) (s : Session) (m : List (String × Json))
    (n : Nat) (method : String) (hid : HasId m n)
    (hmeth : (Json.getKey m "method" (.str "")).asString env.realToString = some method)
    (herr : IsSuccess m ∨ HasError env m)
    (hbad :
      (Json.isMember m "jsonrpc" = true ∧ m.lookup "jsonrpc" ≠ some (.str "2.0")) ∨
      ((n = 0 ∨ method ≠ "") ∧ (Json.getKey m "params" .null).empty = true ∧
        (Json.getKey m "result" .null).empty = true)) :
    processReponse env s (.obj m) = .returned (disconnect s) := by
  obtain ⟨r, he⟩ := errReason_some env m (herr.elim Or.inl (fun h => Or.inr h.2))
  have hid2 : (Json.getKey m "id" (.uint 0)).asUInt = some n := hid
  unfold processReponse
  simp only [isSuccessOf, Json.members, hid2, he, hmeth]
  rcases hbad with ⟨hmem, hne⟩ | ⟨hnot, hp, hr⟩
  · have hchk : (!(Json.getKey m "jsonrpc" .null).isString
        || !(Json.getKey m "jsonrpc" (.str "")).eqStr "2.0") = true := by
      cases hl : m.lookup "jsonrpc" with
      | none => simp [Json.isMember, hl] at hmem
      | some v =>
        cases v with
        | str t =>
          have : t ≠ "2.0" := fun h => hne (by rw [hl, h])
          simp [Json.getKey, hl, Json.isString, Json.eqStr, this]
        | _ => simp [Json.getKey, hl, Json.isString]
    simp [hmem, hchk]
  · have hn : (n == 0 || method != "") = true := by
      rcases hnot with h | h
      · simp [h]
      · simp [h]
    simp [hn, hp, hr]

/-- C19, the code at the failing input: the message
`{"id":"abc","jsonrpc":"1.0"}` has a `jsonrpc` member that is not `2.0`, but
reading its id (`asUInt` on a string) throws before the sanity checks, so
the call ends with an exception, the session unchanged and no `disconnect()`
entered. -/
theorem invalid_frame_throws :
    processReponse sampleEnv (sampleSession .STRATUM)
        (.obj [("id", .str "abc"), ("jsonrpc", .str "1.0")])
      = .threw (sampleSession .STRATUM) ∧
    (sampleSession .STRATUM).out = [] ∧
    processReponse sampleEnv (sampleSession .STRATUM)
        (.obj [("id", .int 7), ("jsonrpc", .str "1.0")])
      = .returned (disconnect (sampleSession .STRATUM)) :=
  ⟨rfl, rfl, rfl⟩

theorem connectAttempts_append (xs ys : List Effect) :
    connectAttempts (xs ++ ys) = connectAttempts xs ++ connectAttempts ys := by
  induction xs with
  | nil => rfl
  | cons x xs ih => cases x <;> simp [connectAttempts, ih]

theorem attemptTrace_append (xs ys : List Effect) :
    attemptTrace (xs ++ ys) = attemptTrace xs ++ attemptTrace ys := by
  induction xs with
  | nil => rfl
  | cons x xs ih => cases x <;> simp [attemptTrace, ih]

theorem addedEffects_append (s t : Session) (blk : List Effect) (h : t.out = s.out ++ blk) :
    addedEffects s t = blk := by
  simp [addedEffects, h]

theorem failAttempt_start_connect (env : Env) (s : Session) (f : AttemptFailure)
    (ep : String) (rest : List String) (b : Bool)
    (hq : s.endpoints = ep :: rest) (hsock : s.socket = some b)
    (htls : f = .handshakeFailure → s.conn.secLevel ≠ .NONE) :
    (failAttempt env (start_connect s) f).endpoints = rest ∧
    (∃ c, (failAttempt env (start_connect s) f).socket = some c) ∧
    (failAttempt env (start_connect s) f).hasOnDisconnected = s.hasOnDisconnected ∧
    (failAttempt env (start_connect s) f).conn = s.conn ∧
    (start_connect s).out = s.out ++ [.connTimerArm, .asyncConnect ep] ∧
    ∃ blk, (failAttempt env (start_connect s) f).out = (start_connect s).out ++ blk ∧
      connectAttempts blk = [] ∧ firedDisconnected blk = 0 ∧ attemptTrace blk = [none] := by
  have hs : start_connect s
      = { s with endpoint := ep, endpoints := rest, socket := some true,
                 out := s.out ++ [.connTimerArm, .asyncConnect ep] } := by
    simp [start_connect, hq, hsock, Session.emit]
  rw [hs]
  cases f with
  | connectError =>
    simp [failAttempt, connect_handler, Session.emit, connectAttempts, firedDisconnected,
      Effect.isOnDisconnected, attemptTrace]
  | connectTimeout =>
    simp only [failAttempt, check_connect_timeout, isPendingState, Session.emit]
    split_ifs <;>
      simp_all [connect_handler, Session.emit, connectAttempts, firedDisconnected,
        Effect.isOnDisconnected, attemptTrace]
  | handshakeFailure =>
    have := htls rfl
    simp [failAttempt, connect_handler, Session.emit, connectAttempts, firedDisconnected,
      Effect.isOnDisconnected, attemptTrace, this]

theorem any_isPostStartConnect_of_trace (blk : List Effect) (h : attemptTrace blk = [none]) :
    blk.any Effect.isPostStartConnect = true := by
  induction blk with
  | nil => simp [attemptTrace] at h
  | cons x xs ih =>
    cases x <;> simp_all [attemptTrace, Effect.isPostStartConnect]

theorem tryEndpoints_spec (env : Env) (fs : List AttemptFailure) :
    ∀ before s : Session, (addedEffects before s).any Effect.isPostStartConnect = true →
      fs.length = s.endpoints.length → (∃ b, s.socket = some b) →
      s.hasOnDisconnected = true →
      (∀ f ∈ fs, f = .handshakeFailure → s.conn.secLevel ≠ .NONE) →
      (∃ mid, (tryEndpoints env before s fs).out = s.out ++ mid ++ [.onDisconnected] ∧
        connectAttempts mid = s.endpoints ∧ firedDisconnected mid = 0 ∧
        attemptTrace mid = oneAtATime s.endpoints) ∧
      (tryEndpoints env before s fs).connecting = false ∧
      (tryEndpoints env before s fs).endpoints = [] := by
  induction fs with
  | nil =>
    intro before s hpost hlen _ hcb _
    have hq : s.endpoints = [] := List.length_eq_zero.mp hlen.symm
    refine ⟨⟨[], ?_, ?_, rfl, ?_⟩, ?_, ?_⟩ <;>
      simp [tryEndpoints, hpost, start_connect, hq, hcb, Session.emit, connectAttempts,
        attemptTrace, oneAtATime]
  | cons f fs ih =>
    intro before s hpost hlen hsock hcb htls
    obtain ⟨b, hb⟩ := hsock
    cases hq : s.endpoints with
    | nil => rw [hq] at hlen; simp at hlen
    | cons ep rest =>
      obtain ⟨h1, h2, h3, h4, hst, blk, h5, h6, h7, h8⟩ :=
        failAttempt_start_connect env s f ep rest b hq hb
          (htls f (List.mem_cons_self _ _))
      have hissued : (addedEffects s (start_connect s)).any Effect.isAsyncConnect = true := by
        rw [addedEffects_append s (start_connect s) _ hst]
        rfl
      have hposted : (addedEffects (start_connect s)
          (failAttempt env (start_connect s) f)).any Effect.isPostStartConnect = true := by
        rw [addedEffects_append _ _ blk h5]
        exact any_isPostStartConnect_of_trace blk h8
      have hlen2 : fs.length = (failAttempt env (start_connect s) f).endpoints.length := by
        rw [h1]
        rw [hq] at hlen
        simpa using hlen
      obtain ⟨⟨mid, g1, g2, g3, g4⟩, g5, g6⟩ :=
        ih (start_connect s) (failAttempt env (start_connect s) f) hposted hlen2 h2
          (by rw [h3, hcb])
          (fun f' hf' hh => by rw [h4]; exact htls f' (List.mem_cons_of_mem _ hf') hh)
      have hrun : tryEndpoints env before s (f :: fs)
          = tryEndpoints env (start_connect s) (failAttempt env (start_connect s) f) fs := by
        simp only [tryEndpoints]
        rw [if_pos hpost, if_pos hissued]
      rw [hrun]
      refine ⟨⟨[.connTimerArm, .asyncConnect ep] ++ blk ++ mid, ?_, ?_, ?_, ?_⟩, g5, g6⟩
      · rw [g1, h5, hst]
        simp
      · rw [connectAttempts_append, connectAttempts_append, h6, g2, h1]
        rfl
      · simp only [firedDisconnected, List.countP_append] at h7 g3 ⊢
        rw [h7, g3]
        rfl
      · rw [attemptTrace_append, attemptTrace_append, h8, g4, h1]
        rfl

theorem afterConnect_frame (env : Env) (s0 : Session) (ep : String) (eps : List String)
    (hc : s0.connecting = false) (hd : s0.disconnecting = false) :
    (afterConnect env s0 (ep :: eps)).connecting = false ∧
    (afterConnect env s0 (ep :: eps)).connected = true ∧
    (afterConnect env s0 (ep :: eps)).disconnecting = false ∧
    (afterConnect env s0 (ep :: eps)).socket = some true ∧
    (afterConnect env s0 (ep :: eps)).responsePending = s0.responsePending ∧
    (afterConnect env s0 (ep :: eps)).conn = s0.conn ∧
    (afterConnect env s0 (ep :: eps)).hasOnDisconnected = s0.hasOnDisconnected ∧
    firedDisconnected (afterConnect env s0 (ep :: eps)).out = firedDisconnected s0.out := by
  have h1 : start_connect (resolve_handler (connect s0) false (ep :: eps))
      = { s0 with
          connecting := true, connected := false, subscribed := false, authorized := false
          socket := some true, endpoint := ep, endpoints := eps
          out := s0.out ++ [.asyncResolve s0.conn.host s0.conn.port, .resolverCancel,
                            .postStartConnect, .connTimerArm, .asyncConnect ep] } := by
    simp [connect, hc, resolve_handler, start_connect, Session.emit]
  unfold afterConnect
  rw [h1]
  simp only [connect_handler, reset_work_timeout, sendSocketData, recvSocketData,
    isConnected, isPendingState, Session.emit]
  split_ifs <;>
    simp_all [firedDisconnected, Effect.isOnDisconnected, List.countP_append, List.countP_cons]

theorem responseCase1_success (env : Env) (s : Session) (jResult : Json) (method : String) :
    (∀ t meth b, responseCase1 env s true jResult method = .goOn t meth b → b = false) ∧
    (responseCase1 env s true jResult method).session.subscribed = true ∧
    (responseCase1 env s true jResult method).session.connecting = s.connecting ∧
    (responseCase1 env s true jResult method).session.connected = s.connected ∧
    (responseCase1 env s true jResult method).session.disconnecting = s.disconnecting ∧
    (responseCase1 env s true jResult method).session.socket = s.socket ∧
    (responseCase1 env s true jResult method).session.responsePending = s.responsePending ∧
    (responseCase1 env s true jResult method).session.conn = s.conn ∧
    (responseCase1 env s true jResult method).session.hasOnDisconnected
      = s.hasOnDisconnected ∧
    firedDisconnected (responseCase1 env s true jResult method).session.out
      = firedDisconnected s.out := by
  unfold responseCase1
  cases hv : s.conn.version
  · simp only [sendSocketData, Session.emit]
    split_ifs <;>
      simp_all [Dispatch.session, Outcome.session, firedDisconnected, Effect.isOnDisconnected,
        List.countP_append, List.countP_cons]
  · simp only [sendSocketData, Session.emit]
    split_ifs <;>
      simp_all [Dispatch.session, Outcome.session, firedDisconnected, Effect.isOnDisconnected,
        List.countP_append, List.countP_cons]
  · rcases jResult with _ | _ | _ | _ | _ | _ | (_ | ⟨x, xs⟩) | _
    case arr.cons =>
      cases h : Json.asString env.realToString (List.getD (x :: xs) 1 (Json.str "")) with
      | none =>
        simp only [h]
        simp [Dispatch.session, Outcome.session]
      | some enonce =>
        simp only [h, sendSocketData, processExtranonce, Session.emit]
        split_ifs <;>
          simp_all [Dispatch.session, Outcome.session, firedDisconnected,
            Effect.isOnDisconnected, List.countP_append, List.countP_cons]
    all_goals
      simp only [sendSocketData, Session.emit]
      split_ifs <;>
        simp_all [Dispatch.session, Outcome.session, firedDisconnected,
          Effect.isOnDisconnected, List.countP_append, List.countP_cons]

theorem subscribe_success_returned (env : Env) (s s5 : Session) (m : List (String × Json))
    (hid : HasId m 1) (hmeth : NoMethod m) (herr : NoError m) (hframe : WellFramed m)
    (h : processReponse env s (.obj m) = .returned s5) :
    s5 = (responseCase1 env s true (Json.getKey m "result" .null) "").session := by
  have he := noError_empty m herr
  rw [processReponse_of_response env s m 1 hid (by decide) hmeth hframe (Or.inl he)] at h
  have hh : handleResponse env s m (toInt32 1) (Json.getKey m "error" .null).empty ""
      = responseCase1 env s true (Json.getKey m "result" .null) "" := by
    simp [handleResponse, toInt32_of_lt, he]
  rw [hh] at h
  have hb := (responseCase1_success env s (Json.getKey m "result" .null) "").1
  cases hd : responseCase1 env s true (Json.getKey m "result" .null) "" with
  | done o =>
    rw [hd] at h
    simp only at h
    rw [h]
    rfl
  | goOn t meth b =>
    rw [hd] at h
    have := hb t meth b hd
    subst this
    simp only [Bool.false_eq_true, if_false] at h
    cases h
    rfl

theorem authorize_success_returned (env : Env) (s : Session) (m : List (String × Json))
    (hid : HasId m 3) (hmeth : NoMethod m) (herr : NoError m) (hframe : WellFramed m)
    (hr : Json.getKey m "result" .null ≠ .bool false) :
    processReponse env s (.obj m) = .returned { s with authorized := true } := by
  have he := noError_empty m herr
  rw [processReponse_of_response env s m 3 hid (by decide) hmeth hframe (Or.inl he)]
  simp [handleResponse, toInt32_of_lt, he, reevaluate_of_ne _ hr]

theorem disconnectToCompletion_open (s : Session) (hd : s.disconnecting = false)
    (hs : s.socket = some true) :
    (disconnectToCompletion s).connecting = s.connecting ∧
    (disconnectToCompletion s).connected = false ∧
    (disconnectToCompletion s).subscribed = false ∧
    (disconnectToCompletion s).authorized = false ∧
    (disconnectToCompletion s).disconnecting = false ∧
    (disconnectToCompletion s).responsePending = false ∧
    firedDisconnected (disconnectToCompletion s).out
      = firedDisconnected s.out + (if s.hasOnDisconnected then 1 else 0) := by
  unfold disconnectToCompletion disconnect disconnect_finalize onSSLShutdownCompleted
  simp only [Session.emit, hd, hs]
  by_cases hp : s.conn.secLevel = .NONE <;> by_cases hcb : s.hasOnDisconnected = true <;>
    simp [hp, hcb, firedDisconnected, Effect.isOnDisconnected, List.countP_append,
      List.countP_cons]

theorem responseCase1_ethproxy (env : Env) (s : Session) (jResult : Json) (method : String)
    (hv : s.conn.version = .ETHPROXY) :
    (responseCase1 env s true jResult method).session.authorized = true := by
  unfold responseCase1
  simp only [hv, sendSocketData, Session.emit]
  split_ifs <;> simp_all [Dispatch.session]

/-- C13: from a session whose status flags are all false, once `connect()`
has run through a successful resolve and connect, the reply to the
subscription (id 1) and the reply to the authorization (id 3; under
ETHPROXY the login reply authorizes by itself) have been handled
successfully, and `disconnect()` has then run to completion, the flags
connecting, connected, subscribed, authorized, disconnecting and
response_pending are all false again and `on_disconnected` has fired exactly
once; before the disconnect the session was connected, subscribed and
authorized. -/
theorem connect_disconnect_cycle (env : Env) (s0 s5 s6 : Session) (ep : String)
    (eps : List String) (m1 m3 : List (String × Json))
    (hflags : s0.connecting = false ∧ s0.connected = false ∧ s0.subscribed = false ∧
      s0.authorized = false ∧ s0.disconnecting = false ∧ s0.responsePending = false)
    (hcb : s0.hasOnDisconnected = true)
    (hm1 : HasId m1 1 ∧ NoMethod m1 ∧ NoError m1 ∧ WellFramed m1)
    (h1 : processReponse env (afterConnect env s0 (ep :: eps)) (.obj m1) = .returned s5)
    (h3 : (HasId m3 3 ∧ NoMethod m3 ∧ NoError m3 ∧ WellFramed m3 ∧
        Json.getKey m3 "result" .null ≠ .bool false ∧
        processReponse env s5 (.obj m3) = .returned s6) ∨
      (s0.conn.version = .ETHPROXY ∧ s6 = s5)) :
    (s6.connected = true ∧ s6.subscribed = true ∧ s6.authorized = true) ∧
    (disconnectToCompletion s6).connecting = false ∧
    (disconnectToCompletion s6).connected = false ∧
    (disconnectToCompletion s6).subscribed = false ∧
    (disconnectToCompletion s6).authorized = false ∧
    (disconnectToCompletion s6).disconnecting = false ∧
    (disconnectToCompletion s6).responsePending = false ∧
    firedDisconnected (disconnectToCompletion s6).out = firedDisconnected s0.out + 1 := by
  obtain ⟨c0, _, _, _, d0, _⟩ := hflags
  obtain ⟨a1, a2, a3, a4, _, a6, a7, a8⟩ := afterConnect_frame env s0 ep eps c0 d0
  have e5 := subscribe_success_returned env _ s5 m1 hm1.1 hm1.2.1 hm1.2.2.1 hm1.2.2.2 h1
  obtain ⟨_, b1, b2, b3, b4, b5, _, b7, b8, b9⟩ :=
    responseCase1_success env (afterConnect env s0 (ep :: eps))
      (Json.getKey m1 "result" .null) ""
  rw [← e5] at b1 b2 b3 b4 b5 b7 b8 b9
  have e6 : s6 = { s5 with authorized := true } := by
    rcases h3 with ⟨g1, g2, g3, g4, g5, g6⟩ | ⟨hv, g⟩
    · rw [authorize_success_returned env s5 m3 g1 g2 g3 g4 g5] at g6
      cases g6
      rfl
    · have hau := responseCase1_ethproxy env (afterConnect env s0 (ep :: eps))
        (Json.getKey m1 "result" .null) "" (by rw [a6]; exact hv)
      rw [← e5] at hau
      rw [g]
      cases s5
      simp_all
  obtain ⟨f1, f2, f3, f4, f5, f6, f7⟩ :=
    disconnectToCompletion_open s6 (by rw [e6]; exact b4.trans a3)
      (by rw [e6]; exact b5.trans a4)
  refine ⟨⟨?_, ?_, ?_⟩, ?_, f2, f3, f4, f5, f6, ?_⟩
  · rw [e6]; exact b3.trans a2
  · rw [e6]; exact b1
  · rw [e6]
  · rw [f1, e6]; exact b2.trans a1
  · rw [f7, e6]
    have hcb6 : s5.hasOnDisconnected = true := by rw [b8, a7, hcb]
    simp only [hcb6, if_true]
    rw [b9, a8]

/-- Witness of C13 on the initial session of the STRATUM sample endpoint,
with one resolved endpoint and the replies `{"error":null,"id":1,"result":true}`
and `{"id":3,"result":true}`. -/
theorem connect_disconnect_cycle_witness :
    (disconnectToCompletion
      (handleAll sampleEnv
        (afterConnect sampleEnv (initialSession (sampleConn .STRATUM)) ["10.0.0.1:3333"])
        [.obj [("error", .null), ("id", .int 1), ("result", .bool true)],
         .obj [("id", .int 3), ("result", .bool true)]])).connected = false ∧
    firedDisconnected
      (disconnectToCompletion
        (handleAll sampleEnv
          (afterConnect sampleEnv (initialSession (sampleConn .STRATUM)) ["10.0.0.1:3333"])
          [.obj [("error", .null), ("id", .int 1), ("result", .bool true)],
           .obj [("id", .int 3), ("result", .bool true)]])).out = 0 + 1 :=
  have h := connect_disconnect_cycle sampleEnv (initialSession (sampleConn .STRATUM))
    (handleAll sampleEnv
      (afterConnect sampleEnv (initialSession (sampleConn .STRATUM)) ["10.0.0.1:3333"])
      [.obj [("error", .null), ("id", .int 1), ("result", .bool true)]])
    (handleAll sampleEnv
      (afterConnect sampleEnv (initialSession (sampleConn .STRATUM)) ["10.0.0.1:3333"])
      [.obj [("error", .null), ("id", .int 1), ("result", .bool true)],
       .obj [("id", .int 3), ("result", .bool true)]])
    "10.0.0.1:3333" []
    [("error", .null), ("id", .int 1), ("result", .bool true)]
    [("id", .int 3), ("result", .bool true)]
    ⟨rfl, rfl, rfl, rfl, rfl, rfl⟩ rfl
    ⟨rfl, rfl, Or.inr rfl, Or.inl rfl⟩ rfl
    (Or.inl ⟨rfl, rfl, Or.inl rfl, Or.inl rfl, by simp [Json.getKey, List.lookup], rfl⟩)
  ⟨h.2.2.1, h.2.2.2.2.2.2.2⟩

/-- C17: from a session whose resolve succeeds, leaving a queue of `n`
endpoints, when every attempt fails (connect error, connect timeout, or TLS
handshake failure on a secure connection), the client issues `async_connect`
on the endpoints in queue order, each exactly once and one at a time (each
attempt follows the `start_connect` the failure before it posted), fires no
`on_disconnected` meanwhile, and once the queue is exhausted fires
`on_disconnected` exactly once, as the last effect, and leaves `connecting`
false. -/
theorem endpoints_exhausted (env : Env) (s : Session) (results : List String)
    (fs : List AttemptFailure)
    (hlen : fs.length = (s.endpoints ++ results).length) (hsock : ∃ b, s.socket = some b)
    (hcb : s.hasOnDisconnected = true)
    (htls : ∀ f ∈ fs, f = .handshakeFailure → s.conn.secLevel ≠ .NONE) :
    (∃ mid, (tryEndpoints env s (resolve_handler s false results) fs).out
        = s.out ++ mid ++ [.onDisconnected] ∧
      connectAttempts mid = s.endpoints ++ results ∧ firedDisconnected mid = 0 ∧
      attemptTrace mid = none :: oneAtATime (s.endpoints ++ results)) ∧
    (tryEndpoints env s (resolve_handler s false results) fs).connecting = false ∧
    (tryEndpoints env s (resolve_handler s false results) fs).endpoints = [] := by
  have hr : resolve_handler s false results
      = { s with endpoints := s.endpoints ++ results,
                 out := s.out ++ [.resolverCancel, .postStartConnect] } := by
    simp [resolve_handler, Session.emit]
  have hpost : (addedEffects s (resolve_handler s false results)).any
      Effect.isPostStartConnect = true := by
    rw [addedEffects_append s _ [.resolverCancel, .postStartConnect] (by rw [hr])]
    rfl
  obtain ⟨⟨mid, g1, g2, g3, g4⟩, g5, g6⟩ :=
    tryEndpoints_spec env fs s (resolve_handler s false results) hpost
      (by rw [hr]; exact hlen) (by rw [hr]; exact hsock) (by rw [hr]; exact hcb)
      (by rw [hr]; exact htls)
  refine ⟨⟨[.resolverCancel, .postStartConnect] ++ mid, ?_, ?_, ?_, ?_⟩, g5, g6⟩
  · rw [g1, hr]
    simp
  · rw [connectAttempts_append, g2, hr]
    rfl
  · simp only [firedDisconnected, List.countP_append] at g3 ⊢
    rw [g3]
    rfl
  · rw [attemptTrace_append, g4, hr]
    rfl

/-- Witness of C17: the initial session on a TLS endpoint, after `connect()`,
with a resolve to three endpoints and then a connect error, a connect
timeout and a handshake failure. -/
theorem endpoints_exhausted_witness :
    (∃ mid,
      (tryEndpoints sampleEnv
        (connect (initialSession { sampleConn .STRATUM with secLevel := .TLS }))
        (resolve_handler
          (connect (initialSession { sampleConn .STRATUM with secLevel := .TLS })) false
          ["10.0.0.1:3333", "10.0.0.2:3333", "10.0.0.3:3333"])
        [.connectError, .connectTimeout, .handshakeFailure]).out
        = (connect (initialSession { sampleConn .STRATUM with secLevel := .TLS })).out
          ++ mid ++ [.onDisconnected] ∧
      connectAttempts mid
        = (connect (initialSession { sampleConn .STRATUM with secLevel := .TLS })).endpoints
          ++ ["10.0.0.1:3333", "10.0.0.2:3333", "10.0.0.3:3333"] ∧
      firedDisconnected mid = 0 ∧
      attemptTrace mid
        = none :: oneAtATime
            ((connect (initialSession { sampleConn .STRATUM with secLevel := .TLS })).endpoints
              ++ ["10.0.0.1:3333", "10.0.0.2:3333", "10.0.0.3:3333"])) ∧
    (tryEndpoints sampleEnv
      (connect (initialSession { sampleConn .STRATUM with secLevel := .TLS }))
      (resolve_handler
        (connect (initialSession { sampleConn .STRATUM with secLevel := .TLS })) false
        ["10.0.0.1:3333", "10.0.0.2:3333", "10.0.0.3:3333"])
      [.connectError, .connectTimeout, .handshakeFailure]).connecting = false ∧
    (tryEndpoints sampleEnv
      (connect (initialSession { sampleConn .STRATUM with secLevel := .TLS }))
      (resolve_handler
        (connect (initialSession { sampleConn .STRATUM with secLevel := .TLS })) false
        ["10.0.0.1:3333", "10.0.0.2:3333", "10.0.0.3:3333"])
      [.connectError, .connectTimeout, .handshakeFailure]).endpoints = [] :=
  endpoints_exhausted sampleEnv
    (connect (initialSession { sampleConn .STRATUM with secLevel := .TLS }))
    ["10.0.0.1:3333", "10.0.0.2:3333", "10.0.0.3:3333"]
    [.connectError, .connectTimeout, .handshakeFailure]
    rfl ⟨false, rfl⟩ rfl (fun _ _ _ h => by cases h)
end Energi
